import Mathlib

/-!
# The GDI+ path container of `dlls/gdiplus/graphicspath.c`

A shallow embedding of the path container (`GpPath`) and of the functions that
build it, read it and compute its bounds, followed by theorems about them.

Conventions of the embedding.

* `REAL` (a C `float`) is a rational.  `GdipGetPathWorldBoundsFl` makes the
  rounding of every arithmetic result explicit; `GdipGetPathWorldBounds` is
  the same function in exact arithmetic, the reading in which the spec states
  its formulas.
* `INT` is a natural number: the lengths and counts handled here are never
  negative, and overflow of the 32-bit range is not modelled.
* `BYTE` is a natural number; the one read-modify-write of a byte (`|=`) is
  reduced modulo 256.
* A pointer to a block of memory is the list of the block's cells; a pointer
  that may be `NULL` is an `Option`.  The two blocks of a path are lists, the
  empty list standing for `NULL`, a freed block or a block of zero bytes.
* A read outside a block yields zero.  A store outside a block (past its end,
  or through `NULL`) does not reach any cell of the block, so the embedding
  drops it; in C it is a heap overrun.
* A function that writes through its arguments returns the written objects
  next to its status.
-/

namespace GdiPlus

/-! ## Data model -/

/-- The C type `REAL`, with exact arithmetic. -/
abbrev REAL := ℚ

/-- The C structure `GpPointF`. -/
structure PointF where
  X : REAL
  Y : REAL
deriving DecidableEq

/-- The C structure `GpRectF`. -/
structure GpRectF where
  X : REAL
  Y : REAL
  Width : REAL
  Height : REAL
deriving DecidableEq

/-- The status codes this file returns. -/
inductive GpStatus where
  | Ok
  | InvalidParameter
  | OutOfMemory
  | InsufficientBuffer
deriving DecidableEq

/-- The fill modes of a path. -/
inductive GpFillMode where
  | FillModeAlternate
  | FillModeWinding
deriving DecidableEq

/-- Modelled from the spec: the header that declares the point types is not
under src/.  Role `Start` of the low-order role field, with the value the
GDI+ headers give it. -/
def PathPointTypeStart : Nat := 0

/-- Modelled from the spec: role `Line` of the role field (header not under
src/). -/
def PathPointTypeLine : Nat := 1

/-- Modelled from the spec: role `Curve` of the role field (header not under
src/). -/
def PathPointTypeBezier : Nat := 3

/-- Modelled from the spec: the mask of the low-order role field (header not
under src/). -/
def PathPointTypePathTypeMask : Nat := 7

/-- Modelled from the spec: the `CloseSubpath` flag bit (header not under
src/). -/
def PathPointTypeCloseSubpath : Nat := 128

/-- Modelled from the spec: the "no-anchor" end-cap flag (header not under
src/). -/
def LineCapNoAnchor : Nat := 16

/-- The role field of a tag byte. -/
def role (t : Nat) : Nat := t &&& PathPointTypePathTypeMask

/-- Whether a tag byte carries the `CloseSubpath` flag. -/
def hasCloseSubpath (t : Nat) : Bool := t &&& PathPointTypeCloseSubpath != 0

/-- A tag byte after `|= PathPointTypeCloseSubpath`. -/
def orCloseSubpath (t : Nat) : Nat := (t ||| PathPointTypeCloseSubpath) % 256

/-- The C structure `GpPath`: `Points` and `Types` are the two blocks of
`pathdata`, `Count` is `pathdata.Count`. -/
structure GpPath where
  fill : GpFillMode
  Points : List PointF
  Types : List Nat
  Count : Nat
  newfigure : Bool
  datalen : Nat
deriving DecidableEq

/-- The C structure `GpMatrix`: six coefficients. -/
structure GpMatrix where
  matrix : Fin 6 → REAL

/-- The fields of the C structure `GpPen` that this file reads, and the start
cap it does not read. -/
structure GpPen where
  width : REAL
  miterlimit : REAL
  endcap : Nat
  startcap : Nat

/-- The answers of the allocator to the (at most two) requests of one call:
`true` for a block, `false` for `NULL`. -/
structure Heap where
  first : Bool
  second : Bool
deriving DecidableEq

/-- The allocator that grants every request. -/
def Heap.grant : Heap := ⟨true, true⟩

/-- The arc-to-curve collaborator as a function from the arc to the points it
produces. -/
abbrev ArcCurve := REAL → REAL → REAL → REAL → REAL → REAL → List PointF

/-! ## Memory primitives -/

/-- The loop `for(i = lo; i < hi; i++) body`. -/
def forLoop {σ : Type} (lo hi : Nat) (body : Nat → σ → σ) (s : σ) : σ :=
  (List.range' lo (hi - lo)).foldl (fun s i => body i s) s

/-- The call `memcpy(dst, src, n)` on cells: the first `n` cells of `src` land
in `dst`. -/
def memcpy {α : Type} : List α → List α → Nat → List α
  | _ :: ds, s :: ss, n + 1 => s :: memcpy ds ss n
  | d :: ds, [], _ + 1 => d :: ds
  | d :: ds, _, 0 => d :: ds
  | [], _, _ => []

/-- A block of `n` zeroed points, as `GdipAlloc` returns it. -/
def allocPoints (n : Nat) : List PointF := List.replicate n ⟨0, 0⟩

/-- A block of `n` zeroed bytes, as `GdipAlloc` returns it. -/
def allocTypes (n : Nat) : List Nat := List.replicate n 0

/-- The call `HeapReAlloc(heap, 0, block, n)` when it succeeds: a block of `n`
cells that starts with the old cells; the embedding fills the fresh cells,
which C leaves indeterminate, with `z`. -/
def HeapReAlloc {α : Type} (z : α) (block : List α) (n : Nat) : List α :=
  (block ++ List.replicate (n - block.length) z).take n

/-- The loop `while(datalen - Count < len) datalen *= 2`, run for at most
`fuel` rounds. -/
def double_datalen : Nat → Nat → Nat → Nat → Nat
  | 0, datalen, _, _ => datalen
  | fuel + 1, datalen, Count, len =>
    if (datalen : Int) - (Count : Int) < (len : Int) then
      double_datalen fuel (datalen * 2) Count len
    else datalen

/-! ## Collaborators -/

/-- Modelled from the spec: arc2polybezier is defined outside src/.  It
reports how many points the arc produces and, given a buffer, writes them
there; the count is the same on both calls. -/
def arc2polybezier (curve : ArcCurve) (points : Option (List PointF))
    (x1 y1 x2 y2 startAngle sweepAngle : REAL) : Nat × Option (List PointF) :=
  let pts := curve x1 y1 x2 y2 startAngle sweepAngle
  (pts.length, points.map (fun buf => memcpy buf pts pts.length))

/-- Modelled from the spec: GdipTransformMatrixPoints is defined outside
src/.  It maps every point by `x' = x*m11 + y*m21 + dx`,
`y' = x*m12 + y*m22 + dy`, in place. -/
def GdipTransformMatrixPoints (matrix : Option GpMatrix) (pts : Option (List PointF))
    (count : Nat) : GpStatus × Option (List PointF) :=
  match matrix, pts with
  | some m, some pts =>
    (GpStatus.Ok, some (forLoop 0 count (fun i pts =>
      let x := (pts.getD i ⟨0, 0⟩).X
      let y := (pts.getD i ⟨0, 0⟩).Y
      pts.set i ⟨x * m.matrix 0 + y * m.matrix 2 + m.matrix 4,
                 x * m.matrix 1 + y * m.matrix 3 + m.matrix 5⟩) pts))
  | _, _ => (GpStatus.InvalidParameter, pts)

/-! ## The functions of graphicspath.c -/

/-- The function `lengthen_path`: make sure path has enough space for `len`
more points.  Returns the `BOOL` and the path as the call leaves it. -/
def lengthen_path (heap : Heap) (path : GpPath) (len : Nat) : Bool × GpPath :=
  if path.datalen = 0 then
    let path := { path with datalen := len * 2 }
    if !heap.first then (false, { path with Points := [] })
    else
      let path := { path with Points := allocPoints path.datalen }
      if !heap.second then (false, { path with Types := [], Points := [] })
      else (true, { path with Types := allocTypes path.datalen })
  else if (path.datalen : Int) - (path.Count : Int) < (len : Int) then
    let path := { path with
      datalen := double_datalen (path.Count + len) path.datalen path.Count len }
    if !heap.first then (false, { path with Points := [] })
    else
      let path := { path with Points := HeapReAlloc ⟨0, 0⟩ path.Points path.datalen }
      if !heap.second then (false, { path with Types := [] })
      else (true, { path with Types := HeapReAlloc 0 path.Types path.datalen })
  else (true, path)

/-- The function `GdipAddPathArc`. -/
def GdipAddPathArc (curve : ArcCurve) (heap : Heap) (path : Option GpPath)
    (x1 y1 x2 y2 startAngle sweepAngle : REAL) : GpStatus × Option GpPath :=
  match path with
  | none => (GpStatus.InvalidParameter, none)
  | some path =>
    let count := (arc2polybezier curve none x1 y1 x2 y2 startAngle sweepAngle).1
    if count = 0 then (GpStatus.Ok, some path)
    else
      match lengthen_path heap path count with
      | (false, path) => (GpStatus.OutOfMemory, some path)
      | (true, path) =>
        let old_count := path.Count
        let path := { path with
          Points := path.Points.take old_count ++
            ((arc2polybezier curve (some (path.Points.drop old_count))
                x1 y1 x2 y2 startAngle sweepAngle).2.getD []) }
        let path := forLoop 0 count (fun i (path : GpPath) =>
          { path with Types := path.Types.set (old_count + i) PathPointTypeBezier }) path
        let path := { path with
          Types := path.Types.set old_count
            (if path.newfigure then PathPointTypeStart else PathPointTypeLine) }
        let path := { path with newfigure := false }
        (GpStatus.Ok, some { path with Count := path.Count + count })

/-- The function `GdipAddPathLine2`. -/
def GdipAddPathLine2 (heap : Heap) (path : Option GpPath) (points : Option (List PointF))
    (count : Nat) : GpStatus × Option GpPath :=
  match path, points with
  | some path, some points =>
    match lengthen_path heap path count with
    | (false, path) => (GpStatus.OutOfMemory, some path)
    | (true, path) =>
      let old_count := path.Count
      let path := forLoop 0 count (fun i (path : GpPath) =>
        { path with
          Points := path.Points.set (old_count + i)
            ⟨(points.getD i ⟨0, 0⟩).X, (points.getD i ⟨0, 0⟩).Y⟩
          Types := path.Types.set (old_count + i) PathPointTypeLine }) path
      let path :=
        if path.newfigure then
          { path with
            Types := path.Types.set old_count PathPointTypeStart
            newfigure := false }
        else path
      (GpStatus.Ok, some { path with Count := path.Count + count })
  | _, _ => (GpStatus.InvalidParameter, path)

/-- The function `GdipClosePathFigure`. -/
def GdipClosePathFigure (path : Option GpPath) : GpStatus × Option GpPath :=
  match path with
  | none => (GpStatus.InvalidParameter, none)
  | some path =>
    if path.Count > 0 then
      (GpStatus.Ok, some { path with
        Types := path.Types.set (path.Count - 1)
          (orCloseSubpath (path.Types.getD (path.Count - 1) 0))
        newfigure := true })
    else (GpStatus.Ok, some path)

/-- The function `GdipClosePathFigures`. -/
def GdipClosePathFigures (path : Option GpPath) : GpStatus × Option GpPath :=
  match path with
  | none => (GpStatus.InvalidParameter, none)
  | some path =>
    let path := forLoop 1 path.Count (fun i (path : GpPath) =>
      if path.Types.getD i 0 = PathPointTypeStart then
        { path with
          Types := path.Types.set (i - 1) (orCloseSubpath (path.Types.getD (i - 1) 0)) }
      else path) path
    (GpStatus.Ok, some { path with newfigure := true })

/-- The record `GdipAlloc(sizeof(GpPath))` returns: all fields zero. -/
def zeroPath : GpPath :=
  { fill := GpFillMode.FillModeAlternate, Points := [], Types := [], Count := 0,
    newfigure := false, datalen := 0 }

/-- The function `GdipCreatePath`; the argument `path` is the cell that
receives the new path, `heap_ok` the answer of the allocator. -/
def GdipCreatePath (heap_ok : Bool) (fill : GpFillMode) (path : Option (Option GpPath)) :
    GpStatus × Option (Option GpPath) :=
  match path with
  | none => (GpStatus.InvalidParameter, none)
  | some _ =>
    if !heap_ok then (GpStatus.OutOfMemory, some none)
    else (GpStatus.Ok, some (some { zeroPath with fill := fill, newfigure := true }))

/-- The function `GdipGetPathFillMode`. -/
def GdipGetPathFillMode (path : Option GpPath) (fillmode : Option GpFillMode) :
    GpStatus × Option GpFillMode :=
  match path, fillmode with
  | some path, some _ => (GpStatus.Ok, some path.fill)
  | _, _ => (GpStatus.InvalidParameter, fillmode)

/-- The function `GdipGetPathPoints`; returns the caller's buffer as the call
leaves it.  The code does not test `points`: with a `NULL` buffer and a
capacity not below `Count` the C program faults in `memcpy`; the embedding
drops the stores and shows the status the code goes on to return. -/
def GdipGetPathPoints (path : Option GpPath) (points : Option (List PointF)) (count : Nat) :
    GpStatus × Option (List PointF) :=
  match path with
  | none => (GpStatus.InvalidParameter, points)
  | some path =>
    if count < path.Count then (GpStatus.InsufficientBuffer, points)
    else (GpStatus.Ok, points.map (fun buf => memcpy buf path.Points path.Count))

/-- The function `GdipGetPathTypes`; returns the caller's buffer as the call
leaves it.  The code does not test `types`: with a `NULL` buffer and a
capacity not below `Count` the C program faults in `memcpy`; the embedding
drops the stores and shows the status the code goes on to return. -/
def GdipGetPathTypes (path : Option GpPath) (types : Option (List Nat)) (count : Nat) :
    GpStatus × Option (List Nat) :=
  match path with
  | none => (GpStatus.InvalidParameter, types)
  | some path =>
    if count < path.Count then (GpStatus.InsufficientBuffer, types)
    else (GpStatus.Ok, types.map (fun buf => memcpy buf path.Types path.Count))

/-- The C macro `min`. -/
def cmin (a b : REAL) : REAL := if a < b then a else b

/-- The C macro `max`. -/
def cmax (a b : REAL) : REAL := if a > b then a else b

/-- The locals `low_x, low_y, high_x, high_y` of `GdipGetPathWorldBounds`. -/
structure Extent where
  low_x : REAL
  low_y : REAL
  high_x : REAL
  high_y : REAL
deriving DecidableEq

/-- The function `GdipGetPathWorldBounds` in exact arithmetic (no result is
rounded; `2.2` is 11/5); returns the caller's rectangle as the call leaves
it.  `GdipGetPathWorldBoundsFl` is the same function with the rounding of
`float` and `double` made explicit. -/
def GdipGetPathWorldBounds (path : Option GpPath) (bounds : Option GpRectF)
    (matrix : Option GpMatrix) (pen : Option GpPen) : GpStatus × Option GpRectF :=
  match path, bounds with
  | some path, some _ =>
    let count := path.Count
    if count = 0 then (GpStatus.Ok, some ⟨0, 0, 0, 0⟩)
    else
      let points := path.Points
      let e : Extent :=
        ⟨(points.getD 0 ⟨0, 0⟩).X, (points.getD 0 ⟨0, 0⟩).Y,
         (points.getD 0 ⟨0, 0⟩).X, (points.getD 0 ⟨0, 0⟩).Y⟩
      let e := forLoop 1 count (fun i (e : Extent) =>
        ⟨cmin e.low_x (points.getD i ⟨0, 0⟩).X, cmin e.low_y (points.getD i ⟨0, 0⟩).Y,
         cmax e.high_x (points.getD i ⟨0, 0⟩).X, cmax e.high_y (points.getD i ⟨0, 0⟩).Y⟩) e
      let width := e.high_x - e.low_x
      let height := e.high_y - e.low_y
      let (low_x, low_y, width, height) :=
        match matrix with
        | some m =>
          let temp_pts : List PointF :=
            [⟨e.low_x, e.low_y⟩, ⟨e.low_x, e.high_y⟩, ⟨e.high_x, e.high_y⟩, ⟨e.high_x, e.low_y⟩]
          let temp_pts := ((GdipTransformMatrixPoints (some m) (some temp_pts) 4).2).getD temp_pts
          let low := forLoop 1 4 (fun i (low : REAL × REAL) =>
            (cmin low.1 (temp_pts.getD i ⟨0, 0⟩).X, cmin low.2 (temp_pts.getD i ⟨0, 0⟩).Y))
            ((temp_pts.getD 0 ⟨0, 0⟩).X, (temp_pts.getD 0 ⟨0, 0⟩).Y)
          let temp := width
          let width := height * |m.matrix 2| + width * |m.matrix 0|
          let height := height * |m.matrix 3| + temp * |m.matrix 1|
          (low.1, low.2, width, height)
        | none => (e.low_x, e.low_y, width, height)
      match pen with
      | some pen =>
        let path_width := pen.width / 2
        let path_width :=
          if count > 2 then cmax path_width (pen.width * pen.miterlimit / 2) else path_width
        let path_width :=
          if pen.endcap &&& LineCapNoAnchor != 0 then cmax path_width (pen.width * (11 / 5))
          else path_width
        (GpStatus.Ok, some ⟨low_x - path_width, low_y - path_width,
          width + 2 * path_width, height + 2 * path_width⟩)
      | none => (GpStatus.Ok, some ⟨low_x, low_y, width, height⟩)
  | _, _ => (GpStatus.InvalidParameter, bounds)

/-- The function `GdipGetPointCount`; returns the caller's cell as the call
leaves it.  The code does not test `count`: with a `NULL` pointer the C
program faults at the store `*count = ...`; the embedding drops the store and
shows the status the code goes on to return. -/
def GdipGetPointCount (path : Option GpPath) (count : Option Nat) : GpStatus × Option Nat :=
  match path with
  | none => (GpStatus.InvalidParameter, count)
  | some path => (GpStatus.Ok, count.map (fun _ => path.Count))

/-- The function `GdipStartPathFigure`. -/
def GdipStartPathFigure (path : Option GpPath) : GpStatus × Option GpPath :=
  match path with
  | none => (GpStatus.InvalidParameter, none)
  | some path => (GpStatus.Ok, some { path with newfigure := true })

/-- The function `GdipTransformPath`. -/
def GdipTransformPath (path : Option GpPath) (matrix : Option GpMatrix) :
    GpStatus × Option GpPath :=
  match path with
  | none => (GpStatus.InvalidParameter, none)
  | some path =>
    if path.Count = 0 then (GpStatus.Ok, some path)
    else
      let r := GdipTransformMatrixPoints matrix (some path.Points) path.Count
      (r.1, some { path with Points := r.2.getD path.Points })

/-! ## Paths of the data model, and sequences of calls -/

/-- The invariant of the data model: both blocks have `datalen` cells and
`Count` does not exceed it. -/
def wf (p : GpPath) : Prop :=
  p.Points.length = p.datalen ∧ p.Types.length = p.datalen ∧ p.Count ≤ p.datalen

instance (p : GpPath) : Decidable (wf p) := by
  unfold wf; exact inferInstance

/-- The path a successful `GdipCreatePath` stores in the caller's cell. -/
def create (fill : GpFillMode) : GpPath :=
  match (GdipCreatePath true fill (some none)).2 with
  | some (some path) => path
  | _ => zeroPath

/-- A call of one of the five operations that build a path, the allocator
granting every request. -/
inductive Call where
  | appendLine (points : List PointF)
  | appendArc (x1 y1 x2 y2 startAngle sweepAngle : REAL)
  | startFigure
  | closeFigure
  | closeAllFigures

/-- The status and the path one call yields. -/
def Call.exec (curve : ArcCurve) (c : Call) (p : GpPath) : GpStatus × GpPath :=
  match c with
  | Call.appendLine points =>
    let r := GdipAddPathLine2 Heap.grant (some p) (some points) points.length
    (r.1, r.2.getD p)
  | Call.appendArc x1 y1 x2 y2 startAngle sweepAngle =>
    let r := GdipAddPathArc curve Heap.grant (some p) x1 y1 x2 y2 startAngle sweepAngle
    (r.1, r.2.getD p)
  | Call.startFigure => let r := GdipStartPathFigure (some p); (r.1, r.2.getD p)
  | Call.closeFigure => let r := GdipClosePathFigure (some p); (r.1, r.2.getD p)
  | Call.closeAllFigures => let r := GdipClosePathFigures (some p); (r.1, r.2.getD p)

/-- The statuses of a sequence of calls, and the path it leaves. -/
def runAll (curve : ArcCurve) : List Call → GpPath → List GpStatus × GpPath
  | [], p => ([], p)
  | c :: cs, p =>
    let r := c.exec curve p
    let rest := runAll curve cs r.2
    (r.1 :: rest.1, rest.2)

/-- The number of points a call appends: the length of the list for a line,
the count the collaborator reports for an arc, none for the figure calls. -/
def Call.appended (curve : ArcCurve) : Call → Nat
  | Call.appendLine points => points.length
  | Call.appendArc x1 y1 x2 y2 startAngle sweepAngle =>
    (arc2polybezier curve none x1 y1 x2 y2 startAngle sweepAngle).1
  | _ => 0

/-- Whether a call appends at least one point whenever it is an `appendLine`:
no `appendLine` of zero points. -/
def Call.noEmptyLine : Call → Bool
  | Call.appendLine points => !points.isEmpty
  | _ => true

/-- The state of the figure bookkeeping the builder is meant to keep: an
empty path has `newfigure` set, and the first tag of a path that holds points
has role `Start`. -/
def figureStartKept (p : GpPath) : Prop :=
  (p.Count = 0 → p.newfigure = true) ∧
  (0 < p.Count → role (p.Types.getD 0 0) = PathPointTypeStart)

/-! ## Notions the statements on bounds and on stores use -/

/-- The stores of `GdipAddPathLine2` into `Points`, in order, on the path
`lengthen_path` hands back: every round of the loop stores input point `i`
into the cell `old_count + i`. -/
def lineStoresPoints (path : GpPath) (points : List PointF) (count : Nat) :
    List (Nat × PointF) :=
  (List.range' 0 count).map (fun i =>
    (path.Count + i, (⟨(points.getD i ⟨0, 0⟩).X, (points.getD i ⟨0, 0⟩).Y⟩ : PointF)))

/-- The stores of `GdipAddPathLine2` into `Types`, in order, on the path
`lengthen_path` hands back: every round of the loop stores `Line` into the
cell `old_count + i`, then `Start` goes into the cell `old_count` when
`newfigure` is set. -/
def lineStoresTypes (path : GpPath) (count : Nat) : List (Nat × Nat) :=
  (List.range' 0 count).map (fun i => (path.Count + i, PathPointTypeLine)) ++
    (if path.newfigure then [(path.Count, PathPointTypeStart)] else [])

/-- A block after a sequence of stores. -/
def applyStores {α : Type} (block : List α) (stores : List (Nat × α)) : List α :=
  stores.foldl (fun l s => l.set s.1 s.2) block

/-- The number of binary digits of `n`, found in at most `fuel` halvings. -/
def bitLength : Nat → Nat → Nat
  | 0, _ => 0
  | fuel + 1, n => if n = 0 then 0 else bitLength fuel (n / 2) + 1

/-- The integer nearest to `n / d`, the even one of two that are equally
near. -/
def nearestEven (n d : Nat) : Nat :=
  if 2 * (n % d) < d then n / d
  else if d < 2 * (n % d) then n / d + 1
  else if (n / d) % 2 = 0 then n / d
  else n / d + 1

/-- The pair `(a, b)` with `a / b = (n / d) / 2^e`. -/
def scaleBy (n d : Nat) (e : Int) : Nat × Nat :=
  if 0 ≤ e then (n, d * 2 ^ e.toNat) else (n * 2 ^ (-e).toNat, d)

/-- The value of a binary floating-point format with `prec` significand bits
nearest to `x`, ties to the even significand (the default rounding of IEEE 754
arithmetic).  The exponent range is not bounded: overflow, subnormal numbers
and NaN are outside the embedding. -/
def roundBinary (prec : Nat) (x : REAL) : REAL :=
  if x = 0 then 0
  else
    let n := x.num.natAbs
    let d := x.den
    let e : Int := (bitLength n n : Int) - (bitLength d d : Int) - (prec : Int)
    let e : Int :=
      if 2 ^ (prec - 1) ≤ (scaleBy n d (e + 1)).1 / (scaleBy n d (e + 1)).2 then e + 1 else e
    let m := nearestEven (scaleBy n d e).1 (scaleBy n d e).2
    let v : REAL := if 0 ≤ e then (m : REAL) * 2 ^ e.toNat else (m : REAL) / 2 ^ (-e).toNat
    if x < 0 then -v else v

/-- How the results of arithmetic are rounded: `single` when the operation is
carried out in, or its result stored to, a `float` (the C type behind `REAL`),
`double` when the operation is carried out in `double`. -/
structure Rounding where
  single : REAL → REAL
  double : REAL → REAL

/-- No rounding: arithmetic on exact reals. -/
def Rounding.exact : Rounding := ⟨fun x => x, fun x => x⟩

/-- Modelled from the spec: GdipTransformMatrixPoints is defined outside
src/.  The map `x' = x*m11 + y*m21 + dx`, `y' = x*m12 + y*m22 + dy` on every
point, in place, each product and each sum rounded to `float`. -/
def GdipTransformMatrixPointsFl (fl : Rounding) (matrix : Option GpMatrix)
    (pts : Option (List PointF)) (count : Nat) : GpStatus × Option (List PointF) :=
  match matrix, pts with
  | some m, some pts =>
    (GpStatus.Ok, some (forLoop 0 count (fun i pts =>
      let x := (pts.getD i ⟨0, 0⟩).X
      let y := (pts.getD i ⟨0, 0⟩).Y
      pts.set i
        ⟨fl.single (fl.single (fl.single (x * m.matrix 0) + fl.single (y * m.matrix 2)) +
            m.matrix 4),
         fl.single (fl.single (fl.single (x * m.matrix 1) + fl.single (y * m.matrix 3)) +
            m.matrix 5)⟩) pts))
  | _, _ => (GpStatus.InvalidParameter, pts)

/-- The function `GdipGetPathWorldBounds` with the rounding of every
arithmetic result made explicit.  `REAL` is `float`: a difference of two
`REAL` is rounded to `float`; `fabs`, `2.0` and `2.2` are `double`, so the
expressions that hold them are evaluated in `double` (each operation rounded
to `double`, the constant `2.2` being the `double` nearest to 11/5) and
rounded to `float` when they are stored to a `REAL`; the macros `min` and
`max` select one of their arguments. -/
def GdipGetPathWorldBoundsFl (fl : Rounding) (path : Option GpPath) (bounds : Option GpRectF)
    (matrix : Option GpMatrix) (pen : Option GpPen) : GpStatus × Option GpRectF :=
  match path, bounds with
  | some path, some _ =>
    let count := path.Count
    if count = 0 then (GpStatus.Ok, some ⟨0, 0, 0, 0⟩)
    else
      let points := path.Points
      let e : Extent :=
        ⟨(points.getD 0 ⟨0, 0⟩).X, (points.getD 0 ⟨0, 0⟩).Y,
         (points.getD 0 ⟨0, 0⟩).X, (points.getD 0 ⟨0, 0⟩).Y⟩
      let e := forLoop 1 count (fun i (e : Extent) =>
        ⟨cmin e.low_x (points.getD i ⟨0, 0⟩).X, cmin e.low_y (points.getD i ⟨0, 0⟩).Y,
         cmax e.high_x (points.getD i ⟨0, 0⟩).X, cmax e.high_y (points.getD i ⟨0, 0⟩).Y⟩) e
      let width := fl.single (e.high_x - e.low_x)
      let height := fl.single (e.high_y - e.low_y)
      let (low_x, low_y, width, height) :=
        match matrix with
        | some m =>
          let temp_pts : List PointF :=
            [⟨e.low_x, e.low_y⟩, ⟨e.low_x, e.high_y⟩, ⟨e.high_x, e.high_y⟩, ⟨e.high_x, e.low_y⟩]
          let temp_pts :=
            ((GdipTransformMatrixPointsFl fl (some m) (some temp_pts) 4).2).getD temp_pts
          let low := forLoop 1 4 (fun i (low : REAL × REAL) =>
            (cmin low.1 (temp_pts.getD i ⟨0, 0⟩).X, cmin low.2 (temp_pts.getD i ⟨0, 0⟩).Y))
            ((temp_pts.getD 0 ⟨0, 0⟩).X, (temp_pts.getD 0 ⟨0, 0⟩).Y)
          let temp := width
          let width := fl.single (fl.double
            (fl.double (height * |m.matrix 2|) + fl.double (width * |m.matrix 0|)))
          let height := fl.single (fl.double
            (fl.double (height * |m.matrix 3|) + fl.double (temp * |m.matrix 1|)))
          (low.1, low.2, width, height)
        | none => (e.low_x, e.low_y, width, height)
      match pen with
      | some pen =>
        let path_width := fl.single (fl.double (pen.width / 2))
        let path_width :=
          if count > 2 then
            fl.single (cmax path_width
              (fl.double (fl.single (pen.width * pen.miterlimit) / 2)))
          else path_width
        let path_width :=
          if pen.endcap &&& LineCapNoAnchor != 0 then
            fl.single (cmax path_width (fl.double (pen.width * fl.double (11 / 5))))
          else path_width
        (GpStatus.Ok, some ⟨fl.single (low_x - path_width), fl.single (low_y - path_width),
          fl.single (fl.double (width + fl.double (2 * path_width))),
          fl.single (fl.double (height + fl.double (2 * path_width)))⟩)
      | none => (GpStatus.Ok, some ⟨low_x, low_y, width, height⟩)
  | _, _ => (GpStatus.InvalidParameter, bounds)

/-! ## Sample values -/

/-- An arc collaborator for which every arc is degenerate. -/
def noArc : ArcCurve := fun _ _ _ _ _ _ => []

/-- An arc collaborator that produces the four control points of one curve
segment between the two corners it is given. -/
def oneSegment : ArcCurve := fun x1 y1 x2 y2 _ _ =>
  [⟨x1, y1⟩, ⟨x2, y1⟩, ⟨x2, y2⟩, ⟨x1, y2⟩]

/-- A path of one point and two cells whose next point opens a figure. -/
def onePointPending : GpPath :=
  { fill := GpFillMode.FillModeAlternate, Points := [⟨1, 2⟩, ⟨0, 0⟩], Types := [0, 0],
    Count := 1, newfigure := true, datalen := 2 }

/-- A path of three points whose last tag has role `Start` and carries the
`CloseSubpath` flag. -/
def flaggedStart : GpPath :=
  { fill := GpFillMode.FillModeAlternate, Points := [⟨0, 0⟩, ⟨1, 0⟩, ⟨5, 5⟩, ⟨0, 0⟩],
    Types := [0, 1, 128, 0], Count := 3, newfigure := true, datalen := 4 }

/-- A path of five points with the `Start` byte at the indices 0, 2 and 4. -/
def threeFigures : GpPath :=
  { fill := GpFillMode.FillModeAlternate,
    Points := [⟨0, 0⟩, ⟨1, 0⟩, ⟨2, 0⟩, ⟨3, 0⟩, ⟨4, 0⟩, ⟨0, 0⟩],
    Types := [0, 1, 0, 3, 0, 0], Count := 5, newfigure := false, datalen := 6 }

/-- The path of the points (0,0), (10,0), (10,5). -/
def trianglePath : GpPath :=
  { fill := GpFillMode.FillModeAlternate, Points := [⟨0, 0⟩, ⟨10, 0⟩, ⟨10, 5⟩, ⟨0, 0⟩],
    Types := [0, 1, 1, 0], Count := 3, newfigure := false, datalen := 4 }

/-- A path of two points in a block of two cells. -/
def fullPath : GpPath :=
  { fill := GpFillMode.FillModeAlternate, Points := [⟨1, 2⟩, ⟨3, 4⟩], Types := [0, 1],
    Count := 2, newfigure := false, datalen := 2 }

theorem forLoop_ge {σ : Type} (lo hi : Nat) (body : Nat → σ → σ) (s : σ) (h : hi ≤ lo) :
    forLoop lo hi body s = s := by
  unfold forLoop
  rw [Nat.sub_eq_zero_of_le h]
  rfl

theorem forLoop_succ {σ : Type} (lo hi : Nat) (body : Nat → σ → σ) (s : σ) (h : lo ≤ hi) :
    forLoop lo (hi + 1) body s = body hi (forLoop lo hi body s) := by
  unfold forLoop
  have e : hi + 1 - lo = (hi - lo) + 1 := by omega
  rw [e, List.range'_concat, List.foldl_append]
  simp only [List.foldl_cons, List.foldl_nil, one_mul]
  congr 1
  omega

theorem double_datalen_ge (fuel d c n : Nat) : d ≤ double_datalen fuel d c n := by
  induction fuel generalizing d with
  | zero => simp [double_datalen]
  | succ f ih =>
    unfold double_datalen
    split
    · exact le_trans (by omega) (ih (d * 2))
    · exact le_refl d

theorem double_datalen_fits (fuel d c n : Nat) (hd : 1 ≤ d) (hf : c + n ≤ d + fuel) :
    c + n ≤ double_datalen fuel d c n := by
  induction fuel generalizing d with
  | zero => simpa [double_datalen] using hf
  | succ f ih =>
    unfold double_datalen
    split
    · exact ih (d * 2) (by omega) (by omega)
    · omega

theorem memcpy_length {α : Type} (d s : List α) (n : Nat) : (memcpy d s n).length = d.length := by
  induction d generalizing s n with
  | nil => simp [memcpy]
  | cons x xs ih =>
    cases s with
    | nil => cases n <;> simp [memcpy]
    | cons y ys =>
      cases n with
      | zero => simp [memcpy]
      | succ m => simp [memcpy, ih]

theorem memcpy_getElem? {α : Type} (d s : List α) (n j : Nat) :
    (memcpy d s n)[j]? = if j < n ∧ j < s.length ∧ j < d.length then s[j]? else d[j]? := by
  induction d generalizing s n j with
  | nil => simp [memcpy]
  | cons x xs ih =>
    cases s with
    | nil => cases n <;> simp [memcpy]
    | cons y ys =>
      cases n with
      | zero => simp [memcpy]
      | succ m =>
        cases j with
        | zero => simp [memcpy]
        | succ k => simp [memcpy, ih]

theorem HeapReAlloc_length {α : Type} (z : α) (b : List α) (n : Nat) :
    (HeapReAlloc z b n).length = n := by
  unfold HeapReAlloc
  simp
  omega

theorem HeapReAlloc_getElem? {α : Type} (z : α) (b : List α) (n j : Nat) (h : b.length ≤ n)
    (hj : j < b.length) : (HeapReAlloc z b n)[j]? = b[j]? := by
  unfold HeapReAlloc
  rw [List.getElem?_take, if_pos (by omega), List.getElem?_append_left hj]

/-- The cells of a block after a loop that stores `f i` at offset `o + i`. -/
theorem forLoop_set_getElem? {α : Type} (o n : Nat) (f : Nat → α) (l : List α) (j : Nat) :
    (forLoop 0 n (fun i (l : List α) => l.set (o + i) (f i)) l)[j]? =
      if o ≤ j ∧ j < o + n ∧ j < l.length then some (f (j - o)) else l[j]? := by
  induction n with
  | zero =>
    rw [forLoop_ge _ _ _ _ (Nat.le_refl 0), if_neg (by omega)]
  | succ m ih =>
    rw [forLoop_succ _ _ _ _ (Nat.zero_le m), List.getElem?_set, ih]
    have hlen : (forLoop 0 m (fun i (l : List α) => l.set (o + i) (f i)) l).length = l.length := by
      clear ih
      induction m with
      | zero => simp [forLoop_ge]
      | succ k ihk => rw [forLoop_succ _ _ _ _ (Nat.zero_le k), List.length_set, ihk]
    rw [hlen]
    by_cases h1 : o + m = j
    · subst h1
      by_cases h2 : o + m < l.length
      · simp [h2]
      · simp [h2]
        omega
    · rw [if_neg h1]
      by_cases h3 : o ≤ j ∧ j < o + m ∧ j < l.length
      · rw [if_pos h3, if_pos ⟨h3.1, by omega, h3.2.2⟩]
      · rw [if_neg h3, if_neg (by omega)]

theorem forLoop_set_length {α : Type} (o n : Nat) (f : Nat → α) (l : List α) :
    (forLoop 0 n (fun i (l : List α) => l.set (o + i) (f i)) l).length = l.length := by
  induction n with
  | zero => simp [forLoop_ge]
  | succ k ihk => rw [forLoop_succ _ _ _ _ (Nat.zero_le k), List.length_set, ihk]

/-! ## Lemmas on tag bytes -/

theorem role_orCloseSubpath (t : Nat) : role (orCloseSubpath t) = role t := by
  unfold role orCloseSubpath PathPointTypePathTypeMask PathPointTypeCloseSubpath
  apply Nat.eq_of_testBit_eq
  intro i
  have e7 : (7 : Nat) = 2 ^ 3 - 1 := by norm_num
  have e128 : (128 : Nat) = 2 ^ 7 := by norm_num
  have e256 : (256 : Nat) = 2 ^ 8 := by norm_num
  rw [e7, e128, e256]
  simp only [Nat.testBit_and, Nat.testBit_mod_two_pow, Nat.testBit_or, Nat.testBit_two_pow,
    Nat.testBit_two_pow_sub_one]
  by_cases h : i < 3
  · have h8 : i < 8 := by omega
    have h7 : ¬ 7 = i := by omega
    simp [h, h8, h7]
  · simp [h]

theorem hasCloseSubpath_orCloseSubpath (t : Nat) : hasCloseSubpath (orCloseSubpath t) = true := by
  have key : orCloseSubpath t &&& PathPointTypeCloseSubpath = 128 := by
    unfold orCloseSubpath PathPointTypeCloseSubpath
    apply Nat.eq_of_testBit_eq
    intro i
    have e128 : (128 : Nat) = 2 ^ 7 := by norm_num
    have e256 : (256 : Nat) = 2 ^ 8 := by norm_num
    rw [e128, e256]
    simp only [Nat.testBit_and, Nat.testBit_mod_two_pow, Nat.testBit_or, Nat.testBit_two_pow]
    by_cases h : 7 = i
    · subst h; simp
    · simp [h]
  unfold hasCloseSubpath
  rw [key]
  rfl

theorem orCloseSubpath_of_byte (t : Nat) (h : t < 256) :
    orCloseSubpath t = t ||| PathPointTypeCloseSubpath := by
  unfold orCloseSubpath PathPointTypeCloseSubpath
  apply Nat.mod_eq_of_lt
  have e256 : (256 : Nat) = 2 ^ 8 := by norm_num
  rw [e256]
  exact Nat.or_lt_two_pow (by omega) (by norm_num)

/-! ## Lemmas on reservation and on the two appends -/

/-- With every request granted, `lengthen_path` on a path of the data model
succeeds, leaves room for `len` more entries and keeps the stored entries. -/
theorem lengthen_path_grant (p : GpPath) (len : Nat) (h : wf p) :
    ∃ q, lengthen_path Heap.grant p len = (true, q) ∧ wf q ∧ q.Count = p.Count ∧
      q.newfigure = p.newfigure ∧ q.fill = p.fill ∧ p.Count + len ≤ q.datalen ∧
      (∀ j, j < p.Count → q.Points[j]? = p.Points[j]?) ∧
      (∀ j, j < p.Count → q.Types[j]? = p.Types[j]?) := by
  obtain ⟨hP, hT, hC⟩ := h
  unfold lengthen_path
  by_cases h0 : p.datalen = 0
  · rw [if_pos h0]
    refine ⟨_, rfl, ⟨?_, ?_, ?_⟩, rfl, rfl, rfl, ?_, ?_, ?_⟩
    · simp [allocPoints]
    · simp [allocTypes]
    · simp only; omega
    · simp only; omega
    · intro j hj; omega
    · intro j hj; omega
  · rw [if_neg h0]
    by_cases h1 : (p.datalen : Int) - (p.Count : Int) < (len : Int)
    · rw [if_pos h1]
      have hge := double_datalen_ge (p.Count + len) p.datalen p.Count len
      have hfit := double_datalen_fits (p.Count + len) p.datalen p.Count len
        (by omega) (by omega)
      refine ⟨_, rfl, ⟨?_, ?_, ?_⟩, rfl, rfl, rfl, ?_, ?_, ?_⟩
      · simp [HeapReAlloc_length]
      · simp [HeapReAlloc_length]
      · simp only; omega
      · simp only; omega
      · intro j hj
        exact HeapReAlloc_getElem? ⟨0, 0⟩ p.Points
          (double_datalen (p.Count + len) p.datalen p.Count len) j (by omega) (by omega)
      · intro j hj
        exact HeapReAlloc_getElem? 0 p.Types
          (double_datalen (p.Count + len) p.datalen p.Count len) j (by omega) (by omega)
    · rw [if_neg h1]
      refine ⟨p, rfl, ⟨hP, hT, hC⟩, rfl, rfl, rfl, ?_, ?_, ?_⟩
      · omega
      · intro j _; rfl
      · intro j _; rfl

/-- The loop of `GdipAddPathLine2` acts on the two blocks separately. -/
theorem line_loop_eq (o n : Nat) (pts : List PointF) (p : GpPath) :
    forLoop 0 n (fun i (path : GpPath) =>
        { path with
          Points := path.Points.set (o + i) ⟨(pts.getD i ⟨0, 0⟩).X, (pts.getD i ⟨0, 0⟩).Y⟩
          Types := path.Types.set (o + i) PathPointTypeLine }) p =
      { p with
        Points := forLoop 0 n (fun i (l : List PointF) => l.set (o + i) (pts.getD i ⟨0, 0⟩))
          p.Points
        Types := forLoop 0 n (fun i (l : List Nat) => l.set (o + i) PathPointTypeLine)
          p.Types } := by
  induction n with
  | zero => simp [forLoop_ge]
  | succ m ih =>
    rw [forLoop_succ _ _ _ _ (Nat.zero_le m), forLoop_succ _ _ _ _ (Nat.zero_le m),
      forLoop_succ _ _ _ _ (Nat.zero_le m), ih]

/-- The loop of `GdipAddPathArc` acts on the block of tags only. -/
theorem arc_loop_eq (o n : Nat) (p : GpPath) :
    forLoop 0 n (fun i (path : GpPath) =>
        { path with Types := path.Types.set (o + i) PathPointTypeBezier }) p =
      { p with
        Types := forLoop 0 n (fun i (l : List Nat) => l.set (o + i) PathPointTypeBezier)
          p.Types } := by
  induction n with
  | zero => simp [forLoop_ge]
  | succ m ih =>
    rw [forLoop_succ _ _ _ _ (Nat.zero_le m), forLoop_succ _ _ _ _ (Nat.zero_le m), ih]

/-- The path `GdipAddPathLine2` leaves when the reservation succeeds. -/
theorem addLine_eq (heap : Heap) (p q0 : GpPath) (pts : List PointF) (n : Nat)
    (h : lengthen_path heap p n = (true, q0)) :
    GdipAddPathLine2 heap (some p) (some pts) n =
      (GpStatus.Ok, some
        { q0 with
          Points := forLoop 0 n (fun i (l : List PointF) => l.set (q0.Count + i)
            (pts.getD i ⟨0, 0⟩)) q0.Points
          Types :=
            if q0.newfigure = true then
              (forLoop 0 n (fun i (l : List Nat) => l.set (q0.Count + i) PathPointTypeLine)
                q0.Types).set q0.Count PathPointTypeStart
            else
              forLoop 0 n (fun i (l : List Nat) => l.set (q0.Count + i) PathPointTypeLine)
                q0.Types
          newfigure := false
          Count := q0.Count + n }) := by
  unfold GdipAddPathLine2
  simp only [h, line_loop_eq]
  cases hn : q0.newfigure <;> simp [hn]

theorem addLine_grant (p : GpPath) (pts : List PointF) (h : wf p) :
    ∃ q, GdipAddPathLine2 Heap.grant (some p) (some pts) pts.length = (GpStatus.Ok, some q) ∧
      wf q ∧ q.Count = p.Count + pts.length ∧ q.fill = p.fill ∧ q.newfigure = false ∧
      (∀ j, j < p.Count → q.Points[j]? = p.Points[j]?) ∧
      (∀ j, j < p.Count → q.Types[j]? = p.Types[j]?) ∧
      (∀ i, i < pts.length → q.Points[p.Count + i]? = pts[i]?) ∧
      (∀ i, i < pts.length → q.Types[p.Count + i]? =
          some (if i = 0 ∧ p.newfigure = true then PathPointTypeStart else PathPointTypeLine)) := by
  obtain ⟨q0, hq0, hwf0, hC0, hN0, hF0, hroom, hPts0, hTy0⟩ := lengthen_path_grant p pts.length h
  obtain ⟨hP, hT, hC⟩ := hwf0
  refine ⟨_, addLine_eq _ _ _ _ _ hq0, ⟨?_, ?_, ?_⟩, ?_, hF0, rfl, ?_, ?_, ?_, ?_⟩
  · simp only [forLoop_set_length]; exact hP
  · simp only; split <;> simp [forLoop_set_length, hT]
  · simp only; omega
  · simp only; omega
  · intro j hj
    simp only [forLoop_set_getElem?]
    rw [if_neg (by omega)]
    exact hPts0 j hj
  · intro j hj
    simp only
    have e : (forLoop 0 pts.length (fun i (l : List Nat) => l.set (q0.Count + i) PathPointTypeLine)
                q0.Types)[j]? = p.Types[j]? := by
      rw [forLoop_set_getElem?, if_neg (by omega)]
      exact hTy0 j hj
    split
    · rw [List.getElem?_set_ne (by omega)]; exact e
    · exact e
  · intro i hi
    simp only [forLoop_set_getElem?]
    rw [hC0, if_pos ⟨by omega, by omega, by omega⟩]
    simp [List.getD_eq_getElem?_getD, List.getElem?_eq_getElem hi]
  · intro i hi
    simp only
    have e : (forLoop 0 pts.length (fun i (l : List Nat) => l.set (p.Count + i) PathPointTypeLine)
                q0.Types)[p.Count + i]? = some PathPointTypeLine := by
      rw [forLoop_set_getElem?, if_pos ⟨by omega, by omega, by omega⟩]
    rw [hN0, hC0]
    by_cases hn : p.newfigure = true
    · rw [if_pos hn]
      by_cases hi0 : i = 0
      · subst hi0
        rw [if_pos ⟨rfl, hn⟩, Nat.add_zero, List.getElem?_set_self]
        rw [forLoop_set_length]; omega
      · rw [if_neg (by tauto), List.getElem?_set_ne (by omega)]
        exact e
    · rw [if_neg hn, if_neg (by tauto)]
      exact e

/-- The path `GdipAddPathArc` leaves for an arc that produces points, when the
reservation succeeds. -/
theorem addArc_eq (curve : ArcCurve) (heap : Heap) (p q0 : GpPath)
    (x1 y1 x2 y2 startAngle sweepAngle : REAL)
    (hk : (curve x1 y1 x2 y2 startAngle sweepAngle).length ≠ 0)
    (h : lengthen_path heap p (curve x1 y1 x2 y2 startAngle sweepAngle).length = (true, q0)) :
    GdipAddPathArc curve heap (some p) x1 y1 x2 y2 startAngle sweepAngle =
      (GpStatus.Ok, some
        { q0 with
          Points := q0.Points.take q0.Count ++
            memcpy (q0.Points.drop q0.Count) (curve x1 y1 x2 y2 startAngle sweepAngle)
              (curve x1 y1 x2 y2 startAngle sweepAngle).length
          Types :=
            (forLoop 0 (curve x1 y1 x2 y2 startAngle sweepAngle).length
              (fun i (l : List Nat) => l.set (q0.Count + i) PathPointTypeBezier) q0.Types).set
              q0.Count (if q0.newfigure = true then PathPointTypeStart else PathPointTypeLine)
          newfigure := false
          Count := q0.Count + (curve x1 y1 x2 y2 startAngle sweepAngle).length }) := by
  unfold GdipAddPathArc
  simp only [arc2polybezier, if_neg hk, h, arc_loop_eq]
  simp

/-- A degenerate arc leaves the path as it is. -/
theorem addArc_degenerate (curve : ArcCurve) (heap : Heap) (p : GpPath)
    (x1 y1 x2 y2 startAngle sweepAngle : REAL)
    (hk : (curve x1 y1 x2 y2 startAngle sweepAngle).length = 0) :
    GdipAddPathArc curve heap (some p) x1 y1 x2 y2 startAngle sweepAngle =
      (GpStatus.Ok, some p) := by
  unfold GdipAddPathArc
  simp only [arc2polybezier, if_pos hk]

theorem addArc_grant (curve : ArcCurve) (p : GpPath) (x1 y1 x2 y2 startAngle sweepAngle : REAL)
    (h : wf p) (hk : (curve x1 y1 x2 y2 startAngle sweepAngle).length ≠ 0) :
    ∃ q, GdipAddPathArc curve Heap.grant (some p) x1 y1 x2 y2 startAngle sweepAngle =
        (GpStatus.Ok, some q) ∧
      wf q ∧ q.Count = p.Count + (curve x1 y1 x2 y2 startAngle sweepAngle).length ∧
      q.fill = p.fill ∧ q.newfigure = false ∧
      (∀ j, j < p.Count → q.Points[j]? = p.Points[j]?) ∧
      (∀ j, j < p.Count → q.Types[j]? = p.Types[j]?) ∧
      (∀ i, i < (curve x1 y1 x2 y2 startAngle sweepAngle).length →
        q.Points[p.Count + i]? = (curve x1 y1 x2 y2 startAngle sweepAngle)[i]?) ∧
      q.Types[p.Count]? =
        some (if p.newfigure = true then PathPointTypeStart else PathPointTypeLine) ∧
      (∀ i, 1 ≤ i → i < (curve x1 y1 x2 y2 startAngle sweepAngle).length →
        q.Types[p.Count + i]? = some PathPointTypeBezier) := by
  obtain ⟨q0, hq0, hwf0, hC0, hN0, hF0, hroom, hPts0, hTy0⟩ :=
    lengthen_path_grant p (curve x1 y1 x2 y2 startAngle sweepAngle).length h
  obtain ⟨hP, hT, hC⟩ := hwf0
  have hlt : (List.take q0.Count q0.Points).length = q0.Count := by
    rw [List.length_take]; omega
  refine ⟨_, addArc_eq _ _ _ _ _ _ _ _ _ _ hk hq0, ⟨?_, ?_, ?_⟩, ?_, hF0, rfl, ?_, ?_, ?_, ?_, ?_⟩
  · simp only [List.length_append, memcpy_length, List.length_take, List.length_drop]; omega
  · simp only [List.length_set, forLoop_set_length]; exact hT
  · simp only; omega
  · simp only; omega
  · intro j hj
    simp only
    rw [List.getElem?_append_left (by omega), List.getElem?_take, if_pos (by omega)]
    exact hPts0 j hj
  · intro j hj
    simp only
    rw [List.getElem?_set_ne (by omega), forLoop_set_getElem?, if_neg (by omega)]
    exact hTy0 j hj
  · intro i hi
    simp only
    rw [List.getElem?_append_right (by omega), memcpy_getElem?, hlt, hC0,
      if_pos ⟨by omega, by omega, by rw [List.length_drop]; omega⟩]
    congr 1
    omega
  · simp only
    rw [hC0, hN0, List.getElem?_set_self]
    rw [forLoop_set_length]; omega
  · intro i h1 hi
    simp only
    rw [hC0, List.getElem?_set_ne (by omega), forLoop_set_getElem?,
      if_pos ⟨by omega, by omega, by omega⟩]

/-! ## Lemmas on closing figures -/

/-- The loop of `GdipClosePathFigures` acts on the block of tags only. -/
theorem closeAll_loop_eq (n : Nat) (p : GpPath) :
    forLoop 1 n (fun i (path : GpPath) =>
        if path.Types.getD i 0 = PathPointTypeStart then
          { path with
            Types := path.Types.set (i - 1) (orCloseSubpath (path.Types.getD (i - 1) 0)) }
        else path) p =
      { p with
        Types := forLoop 1 n (fun i (l : List Nat) =>
          if l.getD i 0 = PathPointTypeStart then
            l.set (i - 1) (orCloseSubpath (l.getD (i - 1) 0))
          else l) p.Types } := by
  induction n with
  | zero => simp [forLoop_ge]
  | succ m ih =>
    by_cases hm : 1 ≤ m
    · rw [forLoop_succ _ _ _ _ hm, forLoop_succ _ _ _ _ hm, ih]
      simp only
      split <;> rfl
    · have h1 : m + 1 ≤ 1 := by omega
      rw [forLoop_ge _ _ _ _ h1, forLoop_ge _ _ _ _ h1]

/-- The cells of the block of tags after the loop of `GdipClosePathFigures`
over the indices below `n`. -/
theorem closeAll_types (l : List Nat) (n : Nat) (hn : n ≤ l.length) :
    (forLoop 1 n (fun i (l : List Nat) =>
        if l.getD i 0 = PathPointTypeStart then
          l.set (i - 1) (orCloseSubpath (l.getD (i - 1) 0))
        else l) l).length = l.length ∧
    ∀ j, (forLoop 1 n (fun i (l : List Nat) =>
        if l.getD i 0 = PathPointTypeStart then
          l.set (i - 1) (orCloseSubpath (l.getD (i - 1) 0))
        else l) l).getD j 0 =
      if j + 1 < n ∧ l.getD (j + 1) 0 = PathPointTypeStart then orCloseSubpath (l.getD j 0)
      else l.getD j 0 := by
  induction n with
  | zero =>
    rw [forLoop_ge _ _ _ _ (by omega)]
    exact ⟨rfl, fun j => by rw [if_neg (by omega)]⟩
  | succ m ih =>
    by_cases hm : 1 ≤ m
    · obtain ⟨ihl, ihg⟩ := ih (by omega)
      rw [forLoop_succ _ _ _ _ hm]
      have em := ihg m
      rw [if_neg (by omega)] at em
      have em1 := ihg (m - 1)
      rw [if_neg (by omega)] at em1
      simp only [em, em1]
      by_cases hs : l.getD m 0 = PathPointTypeStart
      · rw [if_pos hs]
        refine ⟨by rw [List.length_set, ihl], fun j => ?_⟩
        by_cases hj : j = m - 1
        · subst hj
          rw [List.getD_eq_getElem?_getD, List.getElem?_set_self (by omega)]
          have e : m - 1 + 1 = m := by omega
          rw [e, if_pos ⟨by omega, hs⟩]
          rfl
        · rw [List.getD_eq_getElem?_getD, List.getElem?_set_ne (by omega),
            ← List.getD_eq_getElem?_getD, ihg j]
          by_cases hc : j + 1 < m ∧ l.getD (j + 1) 0 = PathPointTypeStart
          · rw [if_pos hc, if_pos ⟨by omega, hc.2⟩]
          · rw [if_neg hc, if_neg]
            intro hc2
            exact hc ⟨by omega, hc2.2⟩
      · rw [if_neg hs]
        refine ⟨ihl, fun j => ?_⟩
        rw [ihg j]
        by_cases hc : j + 1 < m ∧ l.getD (j + 1) 0 = PathPointTypeStart
        · rw [if_pos hc, if_pos ⟨by omega, hc.2⟩]
        · rw [if_neg hc, if_neg]
          intro hc2
          have hjm : j + 1 = m := by
            by_contra hne
            exact hc ⟨by omega, hc2.2⟩
          rw [hjm] at hc2
          exact hs hc2.2
    · have h1 : m + 1 ≤ 1 := by omega
      rw [forLoop_ge _ _ _ _ h1]
      exact ⟨rfl, fun j => by rw [if_neg (by omega)]⟩

/-- What `GdipClosePathFigures` does to a path of the data model. -/
theorem closeFigures_spec (p : GpPath) (h : wf p) :
    ∃ q, GdipClosePathFigures (some p) = (GpStatus.Ok, some q) ∧
      q.Points = p.Points ∧ q.Count = p.Count ∧ q.datalen = p.datalen ∧ q.fill = p.fill ∧
      q.newfigure = true ∧ q.Types.length = p.Types.length ∧
      ∀ j, q.Types.getD j 0 =
        if j + 1 < p.Count ∧ p.Types.getD (j + 1) 0 = PathPointTypeStart then
          orCloseSubpath (p.Types.getD j 0)
        else p.Types.getD j 0 := by
  obtain ⟨_, hT, hC⟩ := h
  obtain ⟨hl, hg⟩ := closeAll_types p.Types p.Count (by omega)
  unfold GdipClosePathFigures
  simp only [closeAll_loop_eq]
  exact ⟨_, rfl, rfl, rfl, rfl, rfl, rfl, hl, hg⟩

/-! ## The claims -/

/-- C1 (the code at the failing input): after `create`, an `appendLine` of
zero points followed by an `appendLine` of one point, both calls return `Ok`
and the path holds one point whose tag is `Line`: `tags[0]` does not have role
`Start`. -/
theorem C1_first_point_after_empty_line :
    (runAll noArc [Call.appendLine [], Call.appendLine [⟨1, 2⟩]]
        (create GpFillMode.FillModeAlternate)).1 = [GpStatus.Ok, GpStatus.Ok] ∧
    (runAll noArc [Call.appendLine [], Call.appendLine [⟨1, 2⟩]]
        (create GpFillMode.FillModeAlternate)).2.Count = 1 ∧
    (runAll noArc [Call.appendLine [], Call.appendLine [⟨1, 2⟩]]
        (create GpFillMode.FillModeAlternate)).2.Types.getD 0 0 = PathPointTypeLine ∧
    role ((runAll noArc [Call.appendLine [], Call.appendLine [⟨1, 2⟩]]
        (create GpFillMode.FillModeAlternate)).2.Types.getD 0 0) ≠ PathPointTypeStart := by
  decide

/-- C2 (the code at the failing input): on the path that `create`, an
`appendLine` of one point and `startFigure` leave (one point, two cells,
`newfigure` set), an `appendLine` of zero points returns `Ok` and clears
`newfigure`; nothing else changes. -/
theorem C2_empty_line_clears_newfigure :
    (runAll noArc [Call.appendLine [⟨1, 2⟩], Call.startFigure]
        (create GpFillMode.FillModeAlternate)).2 = onePointPending ∧
    onePointPending.newfigure = true ∧
    GdipAddPathLine2 Heap.grant (some onePointPending) (some []) 0 =
      (GpStatus.Ok, some { onePointPending with newfigure := false }) := by
  decide

/-- C3 (counterexample): on the path built by `appendLine` of two points,
`startFigure`, `appendLine` of one point and `closeFigure`, the tag at index 2
has role `Start` and carries the `CloseSubpath` flag; `closeAllFigures` leaves
the tag at index 1 as it was, without the flag, so the tags it yields are not
the ones claimed. -/
theorem C3_counterexample :
    (runAll noArc
        [Call.appendLine [⟨0, 0⟩, ⟨1, 0⟩], Call.startFigure, Call.appendLine [⟨5, 5⟩],
          Call.closeFigure] (create GpFillMode.FillModeAlternate)).2 = flaggedStart ∧
    wf flaggedStart ∧
    ¬ (∀ j, j < flaggedStart.Count →
        ((GdipClosePathFigures (some flaggedStart)).2.getD zeroPath).Types.getD j 0 =
          if j + 1 < flaggedStart.Count ∧
              role (flaggedStart.Types.getD (j + 1) 0) = PathPointTypeStart
          then orCloseSubpath (flaggedStart.Types.getD j 0)
          else flaggedStart.Types.getD j 0) := by
  decide

/-- C3 (amended): on every path of the data model `closeAllFigures` returns
`Ok`; the new tag at index `j` is the old one with the `CloseSubpath` flag set
when `j + 1 < count` and the old tag at `j + 1` is exactly the `Start` byte
(role `Start`, no flag bit), and is the old one otherwise; points, count and
capacity are unchanged and `newfigure` is set, also on the empty path.  Hence
the tag before every index that holds the `Start` byte carries the flag, with
its role unchanged. -/
theorem C3_closeAllFigures (p : GpPath) (h : wf p) :
    ∃ q, GdipClosePathFigures (some p) = (GpStatus.Ok, some q) ∧
      q.Points = p.Points ∧ q.Count = p.Count ∧ q.datalen = p.datalen ∧ q.fill = p.fill ∧
      q.newfigure = true ∧ q.Types.length = p.Types.length ∧
      (∀ j, q.Types.getD j 0 =
        if j + 1 < p.Count ∧ p.Types.getD (j + 1) 0 = PathPointTypeStart then
          orCloseSubpath (p.Types.getD j 0)
        else p.Types.getD j 0) ∧
      (∀ k, 0 < k → k < p.Count → p.Types.getD k 0 = PathPointTypeStart →
        hasCloseSubpath (q.Types.getD (k - 1) 0) = true ∧
        role (q.Types.getD (k - 1) 0) = role (p.Types.getD (k - 1) 0)) := by
  obtain ⟨q, hq, hP, hC, hD, hF, hN, hL, hT⟩ := closeFigures_spec p h
  refine ⟨q, hq, hP, hC, hD, hF, hN, hL, hT, ?_⟩
  intro k hk0 hk hs
  have e : k - 1 + 1 = k := by omega
  rw [hT (k - 1), e, if_pos ⟨hk, hs⟩]
  exact ⟨hasCloseSubpath_orCloseSubpath _, role_orCloseSubpath _⟩

/-- C3 (witness): the amended statement on a path with the `Start` byte at the
indices 0, 2 and 4; the tags at the indices 1 and 3 receive the flag. -/
theorem C3_closeAllFigures_witness :
    wf threeFigures ∧
    ∃ q, GdipClosePathFigures (some threeFigures) = (GpStatus.Ok, some q) ∧
      q.newfigure = true ∧
      hasCloseSubpath (q.Types.getD 1 0) = true ∧ hasCloseSubpath (q.Types.getD 3 0) = true := by
  refine ⟨by decide, ?_⟩
  obtain ⟨q, hq, _, _, _, _, hN, _, _, hK⟩ := C3_closeAllFigures threeFigures (by decide)
  exact ⟨q, hq, hN, (hK 2 (by decide) (by decide) (by decide)).1,
    (hK 4 (by decide) (by decide) (by decide)).1⟩

/-- Appending the points of a list one call at a time to a path of the data
model: every call returns `Ok`, and the path gains exactly these points, in
order, after the ones it had. -/
theorem appendEach_spec (curve : ArcCurve) (pts : List PointF) (p : GpPath) (h : wf p) :
    (runAll curve (pts.map (fun pt => Call.appendLine [pt])) p).1 =
        List.replicate pts.length GpStatus.Ok ∧
    wf (runAll curve (pts.map (fun pt => Call.appendLine [pt])) p).2 ∧
    (runAll curve (pts.map (fun pt => Call.appendLine [pt])) p).2.Count =
        p.Count + pts.length ∧
    (∀ j, j < p.Count →
      (runAll curve (pts.map (fun pt => Call.appendLine [pt])) p).2.Points[j]? =
        p.Points[j]?) ∧
    (∀ i, i < pts.length →
      (runAll curve (pts.map (fun pt => Call.appendLine [pt])) p).2.Points[p.Count + i]? =
        pts[i]?) := by
  induction pts generalizing p with
  | nil => exact ⟨rfl, h, rfl, fun _ _ => rfl, fun i hi => absurd hi (by simp)⟩
  | cons a as ih =>
    obtain ⟨q, hq, hwf, hC, _, _, hP, _, hNew, _⟩ := addLine_grant p [a] h
    have hexec : (Call.appendLine [a]).exec curve p = (GpStatus.Ok, q) := by
      simp only [Call.exec]
      rw [hq]
      rfl
    obtain ⟨i1, i2, i3, i4, i5⟩ := ih q hwf
    simp only [List.map_cons, runAll, hexec, List.length_cons]
    refine ⟨?_, i2, ?_, ?_, ?_⟩
    · rw [i1]; rfl
    · rw [i3, hC]; simp only [List.length_singleton]; omega
    · intro j hj
      rw [i4 j (by omega)]
      exact hP j hj
    · intro i hi
      cases i with
      | zero =>
        rw [Nat.add_zero, i4 p.Count (by simp only [hC, List.length_singleton]; omega)]
        have := hNew 0 (by simp)
        simpa using this
      | succ k =>
        have := i5 k (by omega)
        rw [hC] at this
        simp only [List.length_singleton] at this
        rw [show p.Count + (k + 1) = p.Count + 1 + k by omega, this]
        simp

/-- What `memcpy` leaves in a buffer that is long enough. -/
theorem memcpy_eq {α : Type} (d s : List α) (n : Nat) (hs : n ≤ s.length) (hd : n ≤ d.length) :
    memcpy d s n = s.take n ++ d.drop n := by
  apply List.ext_getElem?
  intro j
  rw [memcpy_getElem?]
  by_cases hj : j < n
  · rw [if_pos ⟨hj, by omega, by omega⟩, List.getElem?_append_left (by simp; omega),
      List.getElem?_take, if_pos hj]
  · rw [if_neg (by omega), List.getElem?_append_right (by simp; omega), List.getElem?_drop]
    congr 1
    simp
    omega

/-- C4: for every list of points, starting from a freshly created path and
calling `appendLine` once per point with a one-element list, every call
returns `Ok`, and `getPoints` into a buffer at least as long as the list
returns `Ok` and leaves exactly these points, in append order, in the first
cells of the buffer. -/
theorem C4_growth_keeps_points (curve : ArcCurve) (fill : GpFillMode) (pts buf : List PointF)
    (hbuf : pts.length ≤ buf.length) :
    (runAll curve (pts.map (fun pt => Call.appendLine [pt])) (create fill)).1 =
        List.replicate pts.length GpStatus.Ok ∧
    GdipGetPathPoints
        (some (runAll curve (pts.map (fun pt => Call.appendLine [pt])) (create fill)).2)
        (some buf) buf.length =
      (GpStatus.Ok, some (pts ++ buf.drop pts.length)) := by
  have hwf : wf (create fill) := by
    unfold wf create GdipCreatePath zeroPath
    simp
  obtain ⟨h1, h2, h3, _, h5⟩ := appendEach_spec curve pts (create fill) hwf
  have hc0 : (create fill).Count = 0 := rfl
  rw [hc0, Nat.zero_add] at h3
  refine ⟨h1, ?_⟩
  unfold GdipGetPathPoints
  simp only [h3, if_neg (Nat.not_lt.mpr hbuf), Option.map_some']
  obtain ⟨hPl, _, hCl⟩ := h2
  rw [memcpy_eq _ _ _ (by omega) hbuf]
  congr 3
  apply List.ext_getElem?
  intro j
  rw [List.getElem?_take]
  by_cases hj : j < pts.length
  · rw [if_pos hj]
    have := h5 j hj
    rw [hc0, Nat.zero_add] at this
    exact this
  · rw [if_neg hj]
    exact (List.getElem?_eq_none (by omega)).symm

/-- C4 (witness): three points appended one at a time and read back into a
buffer of four cells. -/
theorem C4_growth_keeps_points_witness :
    ([⟨1, 1⟩, ⟨2, 4⟩, ⟨3, 9⟩] : List PointF).length ≤
      ([⟨7, 7⟩, ⟨7, 7⟩, ⟨7, 7⟩, ⟨7, 7⟩] : List PointF).length ∧
    GdipGetPathPoints
        (some (runAll noArc
          (([⟨1, 1⟩, ⟨2, 4⟩, ⟨3, 9⟩] : List PointF).map (fun pt => Call.appendLine [pt]))
          (create GpFillMode.FillModeWinding)).2)
        (some [⟨7, 7⟩, ⟨7, 7⟩, ⟨7, 7⟩, ⟨7, 7⟩]) 4 =
      (GpStatus.Ok, some [⟨1, 1⟩, ⟨2, 4⟩, ⟨3, 9⟩, ⟨7, 7⟩]) :=
  ⟨by decide,
    (C4_growth_keeps_points noArc GpFillMode.FillModeWinding [⟨1, 1⟩, ⟨2, 4⟩, ⟨3, 9⟩]
      [⟨7, 7⟩, ⟨7, 7⟩, ⟨7, 7⟩, ⟨7, 7⟩] (by decide)).2⟩

/-- With every request granted, `lengthen_path` returns `TRUE` and keeps
`Count`, on every path. -/
theorem lengthen_path_grant_count (p : GpPath) (len : Nat) :
    ∃ q, lengthen_path Heap.grant p len = (true, q) ∧ q.Count = p.Count := by
  unfold lengthen_path
  by_cases h0 : p.datalen = 0
  · rw [if_pos h0]
    exact ⟨_, rfl, rfl⟩
  · rw [if_neg h0]
    by_cases h1 : (p.datalen : Int) - (p.Count : Int) < (len : Int)
    · rw [if_pos h1]
      exact ⟨_, rfl, rfl⟩
    · rw [if_neg h1]
      exact ⟨p, rfl, rfl⟩

/-- Every call returns `Ok` and moves `Count` by the number of points it
appends. -/
theorem exec_count (curve : ArcCurve) (c : Call) (p : GpPath) :
    (c.exec curve p).1 = GpStatus.Ok ∧
    (c.exec curve p).2.Count = p.Count + c.appended curve := by
  cases c with
  | appendLine pts =>
    obtain ⟨q0, hq0, hC0⟩ := lengthen_path_grant_count p pts.length
    simp only [Call.exec, Call.appended, addLine_eq _ _ _ _ _ hq0, Option.getD_some, hC0]
    exact ⟨trivial, trivial⟩
  | appendArc x1 y1 x2 y2 startAngle sweepAngle =>
    by_cases hk : (curve x1 y1 x2 y2 startAngle sweepAngle).length = 0
    · simp only [Call.exec, Call.appended, addArc_degenerate _ _ _ _ _ _ _ _ _ hk,
        Option.getD_some, arc2polybezier, hk]
      exact ⟨trivial, rfl⟩
    · obtain ⟨q0, hq0, hC0⟩ :=
        lengthen_path_grant_count p (curve x1 y1 x2 y2 startAngle sweepAngle).length
      simp only [Call.exec, Call.appended, addArc_eq _ _ _ _ _ _ _ _ _ _ hk hq0,
        Option.getD_some, arc2polybezier, hC0]
      exact ⟨trivial, trivial⟩
  | startFigure => exact ⟨rfl, rfl⟩
  | closeFigure =>
    simp only [Call.exec, Call.appended, GdipClosePathFigure]
    split <;> exact ⟨rfl, rfl⟩
  | closeAllFigures =>
    simp only [Call.exec, Call.appended, GdipClosePathFigures, closeAll_loop_eq]
    exact ⟨trivial, rfl⟩

/-- A sequence of calls moves `Count` by the sum of the numbers of points the
calls append, and every call returns `Ok`. -/
theorem runAll_count (curve : ArcCurve) (calls : List Call) (p : GpPath) :
    (runAll curve calls p).1 = List.replicate calls.length GpStatus.Ok ∧
    (runAll curve calls p).2.Count = p.Count + (calls.map (Call.appended curve)).sum := by
  induction calls generalizing p with
  | nil => exact ⟨rfl, rfl⟩
  | cons c cs ih =>
    obtain ⟨e1, e2⟩ := exec_count curve c p
    obtain ⟨i1, i2⟩ := ih (c.exec curve p).2
    simp only [runAll, List.map_cons, List.sum_cons, List.length_cons, List.replicate_succ]
    refine ⟨by rw [e1, i1], ?_⟩
    rw [i2, e2]
    omega

/-- C5: for every sequence of `appendLine` and `appendArc` calls (and of
figure calls, which append nothing) applied to a freshly created path, every
call returns `Ok` and `getPointCount` afterwards returns the sum of the
lengths of the lists and of the counts the arc collaborator reports; an arc
for which it reports zero points contributes zero. -/
theorem C5_point_count_is_sum (curve : ArcCurve) (fill : GpFillMode) (calls : List Call)
    (cell : Nat) :
    (runAll curve calls (create fill)).1 = List.replicate calls.length GpStatus.Ok ∧
    GdipGetPointCount (some (runAll curve calls (create fill)).2) (some cell) =
      (GpStatus.Ok, some ((calls.map (Call.appended curve)).sum)) ∧
    (∀ pts, Call.appended curve (Call.appendLine pts) = pts.length) ∧
    (∀ x1 y1 x2 y2 startAngle sweepAngle,
      Call.appended curve (Call.appendArc x1 y1 x2 y2 startAngle sweepAngle) =
        (curve x1 y1 x2 y2 startAngle sweepAngle).length) := by
  obtain ⟨h1, h2⟩ := runAll_count curve calls (create fill)
  refine ⟨h1, ?_, fun _ => rfl, fun _ _ _ _ _ _ => rfl⟩
  unfold GdipGetPointCount
  simp only [Option.map_some', h2]
  have hc0 : (create fill).Count = 0 := rfl
  rw [hc0, Nat.zero_add]

/-- C6 (the code at the failing input): in the state that `create` and an
`appendLine` of zero points reach, `closeFigure` followed by an `appendLine`
of one point, or by an arc of four points, returns `Ok` and gives the first
appended point (index 0, the count before the append) the tag `Line`, not
`Start`. -/
theorem C6_append_after_closeFigure_on_cleared_path :
    (runAll noArc [Call.appendLine []] (create GpFillMode.FillModeAlternate)).2.Count = 0 ∧
    (runAll noArc [Call.appendLine [], Call.closeFigure, Call.appendLine [⟨1, 2⟩]]
        (create GpFillMode.FillModeAlternate)).1 = [GpStatus.Ok, GpStatus.Ok, GpStatus.Ok] ∧
    role ((runAll noArc [Call.appendLine [], Call.closeFigure, Call.appendLine [⟨1, 2⟩]]
        (create GpFillMode.FillModeAlternate)).2.Types.getD 0 0) = PathPointTypeLine ∧
    (runAll oneSegment [Call.appendLine [], Call.closeFigure, Call.appendArc 0 0 1 1 0 90]
        (create GpFillMode.FillModeAlternate)).1 = [GpStatus.Ok, GpStatus.Ok, GpStatus.Ok] ∧
    role ((runAll oneSegment [Call.appendLine [], Call.closeFigure, Call.appendArc 0 0 1 1 0 90]
        (create GpFillMode.FillModeAlternate)).2.Types.getD 0 0) = PathPointTypeLine ∧
    PathPointTypeLine ≠ PathPointTypeStart := by
  decide

/-- C7: on every path of the data model and for every arc, with `k` the
number of points the collaborator reports: if `k = 0`, `appendArc` returns
`Ok` and leaves the path as it was; if `k ≥ 1`, it returns `Ok`, the count has
grown by `k`, the entries below the old count are unchanged, the `k` new
points are the collaborator's, the tag at the old count is `Start` if
`newfigure` was set and `Line` otherwise, every other new tag is the byte
`Curve`, and `newfigure` is clear. -/
theorem C7_appendArc (curve : ArcCurve) (p : GpPath) (x1 y1 x2 y2 startAngle sweepAngle : REAL)
    (h : wf p) :
    ((curve x1 y1 x2 y2 startAngle sweepAngle).length = 0 →
      GdipAddPathArc curve Heap.grant (some p) x1 y1 x2 y2 startAngle sweepAngle =
        (GpStatus.Ok, some p)) ∧
    (1 ≤ (curve x1 y1 x2 y2 startAngle sweepAngle).length →
      ∃ q, GdipAddPathArc curve Heap.grant (some p) x1 y1 x2 y2 startAngle sweepAngle =
          (GpStatus.Ok, some q) ∧
        wf q ∧ q.Count = p.Count + (curve x1 y1 x2 y2 startAngle sweepAngle).length ∧
        q.fill = p.fill ∧ q.newfigure = false ∧
        (∀ j, j < p.Count → q.Points[j]? = p.Points[j]?) ∧
        (∀ j, j < p.Count → q.Types[j]? = p.Types[j]?) ∧
        (∀ i, i < (curve x1 y1 x2 y2 startAngle sweepAngle).length →
          q.Points[p.Count + i]? = (curve x1 y1 x2 y2 startAngle sweepAngle)[i]?) ∧
        q.Types[p.Count]? =
          some (if p.newfigure = true then PathPointTypeStart else PathPointTypeLine) ∧
        (∀ i, 1 ≤ i → i < (curve x1 y1 x2 y2 startAngle sweepAngle).length →
          q.Types[p.Count + i]? = some PathPointTypeBezier)) :=
  ⟨fun hk => addArc_degenerate curve Heap.grant p x1 y1 x2 y2 startAngle sweepAngle hk,
   fun hk => addArc_grant curve p x1 y1 x2 y2 startAngle sweepAngle h (by omega)⟩

/-- C7 (witness): an arc of four points appended to a path of one point whose
`newfigure` is set, and a degenerate arc on the same path. -/
theorem C7_appendArc_witness :
    wf onePointPending ∧
    GdipAddPathArc noArc Heap.grant (some onePointPending) 0 0 1 1 0 90 =
      (GpStatus.Ok, some onePointPending) ∧
    ∃ q, GdipAddPathArc oneSegment Heap.grant (some onePointPending) 0 0 1 1 0 90 =
        (GpStatus.Ok, some q) ∧
      q.Count = 5 ∧ q.Types[1]? = some PathPointTypeStart ∧
      q.Types[2]? = some PathPointTypeBezier ∧ q.newfigure = false := by
  refine ⟨by decide, (C7_appendArc noArc onePointPending 0 0 1 1 0 90 (by decide)).1 rfl, ?_⟩
  obtain ⟨q, hq, _, hC, _, hN, _, _, _, hS, hB⟩ :=
    (C7_appendArc oneSegment onePointPending 0 0 1 1 0 90 (by decide)).2 (by decide)
  exact ⟨q, hq, hC, hS, hB 1 (by decide) (by decide), hN⟩

/-- C8: on every path of the data model and for every list of `n ≥ 1`
points, `appendLine` returns `Ok`; afterwards the count
has grown by `n`, the entries below the old count are unchanged, the new point
at index old count + `i` is input point `i`, every new tag is the byte `Line`
except that the tag at the old count is `Start` when `newfigure` was set, and
`newfigure` is clear. -/
theorem C8_appendLine (p : GpPath) (pts : List PointF) (h : wf p) (hn : 1 ≤ pts.length) :
    ∃ q, GdipAddPathLine2 Heap.grant (some p) (some pts) pts.length = (GpStatus.Ok, some q) ∧
      wf q ∧ q.Count = p.Count + pts.length ∧ q.fill = p.fill ∧ q.newfigure = false ∧
      (∀ j, j < p.Count → q.Points[j]? = p.Points[j]?) ∧
      (∀ j, j < p.Count → q.Types[j]? = p.Types[j]?) ∧
      (∀ i, i < pts.length → q.Points[p.Count + i]? = pts[i]?) ∧
      (∀ i, i < pts.length → q.Types[p.Count + i]? =
          some (if i = 0 ∧ p.newfigure = true then PathPointTypeStart else PathPointTypeLine)) ∧
      q.Types[p.Count]? =
        some (if p.newfigure = true then PathPointTypeStart else PathPointTypeLine) := by
  obtain ⟨q, hq, hwf, hC, hF, hN, hP, hT, hNP, hNT⟩ := addLine_grant p pts h
  refine ⟨q, hq, hwf, hC, hF, hN, hP, hT, hNP, hNT, ?_⟩
  have := hNT 0 (by omega)
  simpa using this

/-- C8 (witness): two points appended to a path of one point whose `newfigure`
is set. -/
theorem C8_appendLine_witness :
    wf onePointPending ∧ 1 ≤ ([⟨3, 4⟩, ⟨5, 6⟩] : List PointF).length ∧
    ∃ q, GdipAddPathLine2 Heap.grant (some onePointPending) (some [⟨3, 4⟩, ⟨5, 6⟩]) 2 =
        (GpStatus.Ok, some q) ∧
      q.Count = 3 ∧ q.Points[2]? = some ⟨5, 6⟩ ∧ q.Types[1]? = some PathPointTypeStart ∧
      q.Types[2]? = some PathPointTypeLine ∧ q.newfigure = false := by
  refine ⟨by decide, by decide, ?_⟩
  obtain ⟨q, hq, _, hC, _, hN, _, _, hNP, hNT, hS⟩ :=
    C8_appendLine onePointPending [⟨3, 4⟩, ⟨5, 6⟩] (by decide) (by decide)
  exact ⟨q, hq, hC, hNP 1 (by decide), hS, hNT 1 (by decide), hN⟩

/-- C9: on every path of the data model `closeFigure` returns `Ok`.  If
`count > 0`, the tag at index `count - 1` becomes the old tag or-ed with the
`CloseSubpath` flag, so it carries the flag and keeps its role; every other
tag, every point, the count and the capacity are unchanged, and `newfigure` is
set.  If `count = 0`, the path is unchanged, `newfigure` included. -/
theorem C9_closeFigure (p : GpPath) (h : wf p) :
    (0 < p.Count →
      ∃ q, GdipClosePathFigure (some p) = (GpStatus.Ok, some q) ∧
        q.Types.getD (p.Count - 1) 0 = orCloseSubpath (p.Types.getD (p.Count - 1) 0) ∧
        (p.Types.getD (p.Count - 1) 0 < 256 →
          q.Types.getD (p.Count - 1) 0 =
            p.Types.getD (p.Count - 1) 0 ||| PathPointTypeCloseSubpath) ∧
        hasCloseSubpath (q.Types.getD (p.Count - 1) 0) = true ∧
        role (q.Types.getD (p.Count - 1) 0) = role (p.Types.getD (p.Count - 1) 0) ∧
        (∀ j, j ≠ p.Count - 1 → q.Types[j]? = p.Types[j]?) ∧
        q.Types.length = p.Types.length ∧ q.Points = p.Points ∧ q.Count = p.Count ∧
        q.datalen = p.datalen ∧ q.fill = p.fill ∧ q.newfigure = true) ∧
    (p.Count = 0 → GdipClosePathFigure (some p) = (GpStatus.Ok, some p)) := by
  obtain ⟨_, hT, hC⟩ := h
  constructor
  · intro hpos
    have hset : (p.Types.set (p.Count - 1) (orCloseSubpath (p.Types.getD (p.Count - 1) 0))).getD
        (p.Count - 1) 0 = orCloseSubpath (p.Types.getD (p.Count - 1) 0) := by
      rw [List.getD_eq_getElem?_getD, List.getElem?_set_self (by omega)]
      rfl
    simp only [GdipClosePathFigure]
    rw [if_pos hpos]
    refine ⟨_, rfl, hset, ?_, ?_, ?_, ?_, ?_, rfl, rfl, rfl, rfl, rfl⟩
    · intro hb
      simp only [hset]
      exact orCloseSubpath_of_byte _ hb
    · simp only [hset]
      exact hasCloseSubpath_orCloseSubpath _
    · simp only [hset]
      exact role_orCloseSubpath _
    · intro j hj
      exact List.getElem?_set_ne (fun e => hj e.symm)
    · simp only [List.length_set]
  · intro h0
    simp only [GdipClosePathFigure]
    rw [if_neg (by omega)]

/-- C9 (witness): `closeFigure` on a path of three points, and on the freshly
created path. -/
theorem C9_closeFigure_witness :
    wf trianglePath ∧ wf (create GpFillMode.FillModeAlternate) ∧
    (∃ q, GdipClosePathFigure (some trianglePath) = (GpStatus.Ok, some q) ∧
      q.Types.getD 2 0 = 129 ∧ q.newfigure = true) ∧
    GdipClosePathFigure (some (create GpFillMode.FillModeAlternate)) =
      (GpStatus.Ok, some (create GpFillMode.FillModeAlternate)) := by
  refine ⟨by decide, by decide, ?_,
    (C9_closeFigure (create GpFillMode.FillModeAlternate) (by decide)).2 rfl⟩
  obtain ⟨q, hq, hv, _, _, _, _, _, _, _, _, _, hN⟩ :=
    (C9_closeFigure trianglePath (by decide)).1 (by decide)
  exact ⟨q, hq, hv, hN⟩

/-! ## Lemmas on the bounds -/

/-- Every call keeps the invariant of the data model, the zero-length
`appendLine` included. -/
theorem exec_wf (curve : ArcCurve) (c : Call) (p : GpPath) (h : wf p) :
    wf (c.exec curve p).2 := by
  cases c with
  | appendLine pts =>
    obtain ⟨q, hq, hwf, _⟩ := addLine_grant p pts h
    simp only [Call.exec, hq, Option.getD_some]
    exact hwf
  | appendArc x1 y1 x2 y2 startAngle sweepAngle =>
    by_cases hk : (curve x1 y1 x2 y2 startAngle sweepAngle).length = 0
    · simp only [Call.exec, addArc_degenerate _ _ _ _ _ _ _ _ _ hk, Option.getD_some]
      exact h
    · obtain ⟨q, hq, hwf, _⟩ := addArc_grant curve p x1 y1 x2 y2 startAngle sweepAngle h hk
      simp only [Call.exec, hq, Option.getD_some]
      exact hwf
  | startFigure => exact h
  | closeFigure =>
    obtain ⟨hP, hT, hC⟩ := h
    simp only [Call.exec, GdipClosePathFigure]
    split
    · exact ⟨hP, by simp only [Option.getD_some, List.length_set]; exact hT, hC⟩
    · exact ⟨hP, hT, hC⟩
  | closeAllFigures =>
    obtain ⟨q, hq, hP, hC, hD, _, _, hL, _⟩ := closeFigures_spec p h
    obtain ⟨h1, h2, h3⟩ := h
    simp only [Call.exec, hq, Option.getD_some]
    exact ⟨by rw [hP, hD]; exact h1, by rw [hL, hD]; exact h2, by rw [hC, hD]; exact h3⟩

/-- Every sequence of calls keeps the invariant of the data model. -/
theorem runAll_wf (curve : ArcCurve) (calls : List Call) (p : GpPath) (h : wf p) :
    wf (runAll curve calls p).2 := by
  induction calls generalizing p with
  | nil => exact h
  | cons c cs ih => exact ih _ (exec_wf curve c p h)

theorem role_Start : role PathPointTypeStart = PathPointTypeStart := by decide

/-- A call that is not an `appendLine` of zero points keeps the figure
bookkeeping. -/
theorem exec_figureStartKept (curve : ArcCurve) (c : Call) (p : GpPath) (h : wf p)
    (hk : figureStartKept p) (hc : c.noEmptyLine = true) :
    figureStartKept (c.exec curve p).2 := by
  obtain ⟨k0, k1⟩ := hk
  cases c with
  | appendLine pts =>
    have hn : 1 ≤ pts.length := by
      cases pts with
      | nil => simp [Call.noEmptyLine] at hc
      | cons a as => simp
    obtain ⟨q, hq, _, hC, _, _, _, hT, _, hNT⟩ := addLine_grant p pts h
    simp only [Call.exec, hq, Option.getD_some]
    refine ⟨fun h0 => by omega, fun _ => ?_⟩
    by_cases hp : p.Count = 0
    · have := hNT 0 (by omega)
      rw [hp, if_pos ⟨rfl, k0 hp⟩] at this
      rw [List.getD_eq_getElem?_getD, this]
      exact role_Start
    · rw [List.getD_eq_getElem?_getD, hT 0 (by omega), ← List.getD_eq_getElem?_getD]
      exact k1 (by omega)
  | appendArc x1 y1 x2 y2 startAngle sweepAngle =>
    by_cases hz : (curve x1 y1 x2 y2 startAngle sweepAngle).length = 0
    · simp only [Call.exec, addArc_degenerate _ _ _ _ _ _ _ _ _ hz, Option.getD_some]
      exact ⟨k0, k1⟩
    · obtain ⟨q, hq, _, hC, _, _, _, hT, _, hS, _⟩ :=
        addArc_grant curve p x1 y1 x2 y2 startAngle sweepAngle h hz
      simp only [Call.exec, hq, Option.getD_some]
      refine ⟨fun h0 => by omega, fun _ => ?_⟩
      by_cases hp : p.Count = 0
      · rw [hp, if_pos (k0 hp)] at hS
        rw [List.getD_eq_getElem?_getD, hS]
        exact role_Start
      · rw [List.getD_eq_getElem?_getD, hT 0 (by omega), ← List.getD_eq_getElem?_getD]
        exact k1 (by omega)
  | startFigure => exact ⟨fun _ => rfl, k1⟩
  | closeFigure =>
    obtain ⟨_, hT, hC⟩ := h
    simp only [Call.exec, GdipClosePathFigure]
    by_cases hp : p.Count > 0
    · rw [if_pos hp]
      refine ⟨fun _ => rfl, fun _ => ?_⟩
      simp only [Option.getD_some]
      by_cases h1 : p.Count - 1 = 0
      · rw [h1, List.getD_eq_getElem?_getD, List.getElem?_set_self (by omega)]
        exact (role_orCloseSubpath _).trans (k1 hp)
      · rw [List.getD_eq_getElem?_getD, List.getElem?_set_ne h1, ← List.getD_eq_getElem?_getD]
        exact k1 hp
    · rw [if_neg hp]
      exact ⟨k0, k1⟩
  | closeAllFigures =>
    obtain ⟨q, hq, _, hC, _, _, hN, _, hT⟩ := closeFigures_spec p h
    simp only [Call.exec, hq, Option.getD_some]
    refine ⟨fun _ => hN, fun hpos => ?_⟩
    rw [hT 0]
    split
    · exact (role_orCloseSubpath _).trans (k1 (by omega))
    · exact k1 (by omega)

/-- In every state reached from `create` by calls none of which is an
`appendLine` of zero points, the invariant of the data model holds, an empty
path has `newfigure` set, and `tags[0]` has role `Start` when the path holds
points. -/
theorem runAll_figureStartKept (curve : ArcCurve) (fill : GpFillMode) (calls : List Call)
    (hc : ∀ c, c ∈ calls → c.noEmptyLine = true) :
    wf (runAll curve calls (create fill)).2 ∧
    figureStartKept (runAll curve calls (create fill)).2 := by
  have key : ∀ (cs : List Call) (p : GpPath), wf p → figureStartKept p →
      (∀ c, c ∈ cs → c.noEmptyLine = true) →
      wf (runAll curve cs p).2 ∧ figureStartKept (runAll curve cs p).2 := by
    intro cs
    induction cs with
    | nil => exact fun p h1 h2 _ => ⟨h1, h2⟩
    | cons c cs ih =>
      intro p h1 h2 h3
      exact ih _ (exec_wf curve c p h1)
        (exec_figureStartKept curve c p h1 h2 (h3 c (List.mem_cons_self c cs)))
        (fun d hd => h3 d (List.mem_cons_of_mem c hd))
  refine key calls (create fill) ?_ ⟨fun _ => rfl, fun h => ?_⟩ hc
  · unfold wf create GdipCreatePath zeroPath
    simp
  · exact absurd h (Nat.lt_irrefl 0)

/-- On a path of the data model that keeps the figure bookkeeping,
`closeFigure` followed by an `appendLine` of at least one point tags the first
appended point `Start`. -/
theorem closeFigure_then_line (p : GpPath) (pts : List PointF) (h : wf p)
    (hk : figureStartKept p) (hn : 1 ≤ pts.length) :
    ∃ q r, GdipClosePathFigure (some p) = (GpStatus.Ok, some q) ∧ q.Count = p.Count ∧
      GdipAddPathLine2 Heap.grant (some q) (some pts) pts.length = (GpStatus.Ok, some r) ∧
      r.Types[p.Count]? = some PathPointTypeStart := by
  have hq : ∃ q, GdipClosePathFigure (some p) = (GpStatus.Ok, some q) ∧ q.Count = p.Count ∧
      wf q ∧ q.newfigure = true := by
    obtain ⟨hP, hT, hC⟩ := h
    simp only [GdipClosePathFigure]
    by_cases hp : p.Count > 0
    · rw [if_pos hp]
      exact ⟨_, rfl, rfl, ⟨hP, by simp only [List.length_set]; exact hT, hC⟩, rfl⟩
    · rw [if_neg hp]
      exact ⟨p, rfl, rfl, ⟨hP, hT, hC⟩, hk.1 (by omega)⟩
  obtain ⟨q, e1, e2, e3, e4⟩ := hq
  obtain ⟨r, hr, _, _, _, _, _, _, _, hNT⟩ := addLine_grant q pts e3
  refine ⟨q, r, e1, e2, hr, ?_⟩
  have := hNT 0 (by omega)
  rw [if_pos ⟨rfl, e4⟩, e2] at this
  exact this

/-! ## Lemmas on the bounds under a matrix and a pen -/

/-- C13: on every path of the data model and for every caller buffer of `c`
cells passed with the capacity `c`: if `c < count`, `getPoints` and `getTags`
return `InsufficientBuffer` and leave the buffer as it was; if `c ≥ count`,
each returns `Ok`, the first `count` cells of the buffer are the first `count`
points (tags) of the path in order, and the cells from `count` on are as they
were.  Both functions take the path by value: they have no store into it. -/
theorem C13_getPoints_getTags (p : GpPath) (points : List PointF) (types : List Nat)
    (h : wf p) :
    (points.length < p.Count →
      GdipGetPathPoints (some p) (some points) points.length =
        (GpStatus.InsufficientBuffer, some points)) ∧
    (types.length < p.Count →
      GdipGetPathTypes (some p) (some types) types.length =
        (GpStatus.InsufficientBuffer, some types)) ∧
    (p.Count ≤ points.length →
      GdipGetPathPoints (some p) (some points) points.length =
        (GpStatus.Ok, some (p.Points.take p.Count ++ points.drop p.Count))) ∧
    (p.Count ≤ types.length →
      GdipGetPathTypes (some p) (some types) types.length =
        (GpStatus.Ok, some (p.Types.take p.Count ++ types.drop p.Count))) := by
  obtain ⟨hP, hT, hC⟩ := h
  refine ⟨fun hlt => ?_, fun hlt => ?_, fun hge => ?_, fun hge => ?_⟩
  · simp only [GdipGetPathPoints, if_pos hlt]
  · simp only [GdipGetPathTypes, if_pos hlt]
  · simp only [GdipGetPathPoints, if_neg (Nat.not_lt.mpr hge), Option.map_some']
    rw [memcpy_eq _ _ _ (by omega) hge]
  · simp only [GdipGetPathTypes, if_neg (Nat.not_lt.mpr hge), Option.map_some']
    rw [memcpy_eq _ _ _ (by omega) hge]

/-- C13 (witness): the path of three points read into buffers of two and of
four cells. -/
theorem C13_getPoints_getTags_witness :
    wf trianglePath ∧
    GdipGetPathPoints (some trianglePath) (some [⟨7, 7⟩, ⟨7, 7⟩]) 2 =
      (GpStatus.InsufficientBuffer, some [⟨7, 7⟩, ⟨7, 7⟩]) ∧
    GdipGetPathTypes (some trianglePath) (some [9, 9, 9, 9]) 4 =
      (GpStatus.Ok, some [0, 1, 1, 9]) :=
  ⟨by decide,
    (C13_getPoints_getTags trianglePath [⟨7, 7⟩, ⟨7, 7⟩] [9, 9, 9, 9] (by decide)).1
      (by decide),
    (C13_getPoints_getTags trianglePath [⟨7, 7⟩, ⟨7, 7⟩] [9, 9, 9, 9] (by decide)).2.2.2
      (by decide)⟩

/-- C14 (the code at the failing inputs): when the allocator refuses the first
allocation of a freshly created path, `appendLine` of one point returns
`OutOfMemory` and leaves `datalen = 2` with no block; when it refuses the
second, both blocks are gone and `datalen = 2`.  When it refuses the resize of
`Points` on a full path of two points, `datalen` is 4 and the block of points
is gone; when it refuses the resize of `Types`, `Points` has 4 cells, `Types`
none, and `datalen` is 4. -/
theorem C14_failed_growth_changes_path :
    GdipAddPathLine2 ⟨false, true⟩ (some (create GpFillMode.FillModeAlternate))
        (some [⟨1, 2⟩]) 1 =
      (GpStatus.OutOfMemory,
        some { create GpFillMode.FillModeAlternate with datalen := 2 }) ∧
    GdipAddPathLine2 ⟨true, false⟩ (some (create GpFillMode.FillModeAlternate))
        (some [⟨1, 2⟩]) 1 =
      (GpStatus.OutOfMemory,
        some { create GpFillMode.FillModeAlternate with datalen := 2 }) ∧
    (create GpFillMode.FillModeAlternate).datalen = 0 ∧
    GdipAddPathLine2 ⟨false, true⟩ (some fullPath) (some [⟨5, 6⟩]) 1 =
      (GpStatus.OutOfMemory, some { fullPath with datalen := 4, Points := [] }) ∧
    GdipAddPathLine2 ⟨true, false⟩ (some fullPath) (some [⟨5, 6⟩]) 1 =
      (GpStatus.OutOfMemory,
        some { fullPath with
          datalen := 4, Points := [⟨1, 2⟩, ⟨3, 4⟩, ⟨0, 0⟩, ⟨0, 0⟩], Types := [] }) ∧
    fullPath.datalen = 2 ∧ fullPath.Points = [⟨1, 2⟩, ⟨3, 4⟩] ∧ fullPath.Types = [0, 1] := by
  decide

/-- C15 (the code at the failing inputs): with a path and a `NULL` output
pointer, `getPointCount` returns `Ok`, and so do `getPoints` and `getTags`
when the stated capacity is not below the count (`InsufficientBuffer` when it
is); only `getFillMode` returns `InvalidParameter`. -/
theorem C15_null_output_pointer_not_checked :
    GdipGetPointCount (some trianglePath) none = (GpStatus.Ok, none) ∧
    GdipGetPathPoints (some trianglePath) none 3 = (GpStatus.Ok, none) ∧
    GdipGetPathTypes (some trianglePath) none 3 = (GpStatus.Ok, none) ∧
    GdipGetPathPoints (some trianglePath) none 2 = (GpStatus.InsufficientBuffer, none) ∧
    GdipGetPathTypes (some trianglePath) none 2 = (GpStatus.InsufficientBuffer, none) ∧
    GdipGetPathFillMode (some trianglePath) none = (GpStatus.InvalidParameter, none) := by
  decide

/-! ## The bounds contain the path -/

/-- The loop that stores `f i` at offset `o + i` is the sequence of these
stores. -/
theorem forLoop_set_eq_applyStores {α : Type} (o n : Nat) (f : Nat → α) (l : List α) :
    forLoop 0 n (fun i (l : List α) => l.set (o + i) (f i)) l =
      applyStores l ((List.range' 0 n).map (fun i => (o + i, f i))) := by
  unfold forLoop applyStores
  rw [List.foldl_map, Nat.sub_zero]

/-- The blocks `GdipAddPathLine2` leaves are the blocks `lengthen_path` hands
back after the stores listed by `lineStoresPoints` and `lineStoresTypes`. -/
theorem addLine_stores (heap : Heap) (p q0 : GpPath) (pts : List PointF) (n : Nat)
    (h : lengthen_path heap p n = (true, q0)) :
    GdipAddPathLine2 heap (some p) (some pts) n =
      (GpStatus.Ok, some
        { q0 with
          Points := applyStores q0.Points (lineStoresPoints q0 pts n)
          Types := applyStores q0.Types (lineStoresTypes q0 n)
          newfigure := false
          Count := q0.Count + n }) := by
  rw [addLine_eq heap p q0 pts n h]
  unfold lineStoresPoints lineStoresTypes
  rw [forLoop_set_eq_applyStores, forLoop_set_eq_applyStores]
  cases hn : q0.newfigure
  · simp [applyStores]
  · simp [applyStores, List.foldl_append]

/-- When an `appendLine` of `n` points appends at least one point, or finds
`newfigure` clear, every store goes into a cell of `[old count, old count + n)`
and below the capacity the reservation left. -/
theorem lineStores_within (p q0 : GpPath) (pts : List PointF) (n : Nat) (h : wf p)
    (hq : lengthen_path Heap.grant p n = (true, q0))
    (hn : 1 ≤ n ∨ q0.newfigure = false) :
    (∀ s, s ∈ lineStoresTypes q0 n →
      q0.Count ≤ s.1 ∧ s.1 < q0.Count + n ∧ s.1 < q0.datalen) ∧
    (∀ s, s ∈ lineStoresPoints q0 pts n →
      q0.Count ≤ s.1 ∧ s.1 < q0.Count + n ∧ s.1 < q0.datalen) := by
  obtain ⟨q, hq', _, hC, _, _, hroom, _, _⟩ := lengthen_path_grant p n h
  rw [hq] at hq'
  cases hq'
  constructor
  · intro s hs
    unfold lineStoresTypes at hs
    rw [List.mem_append] at hs
    rcases hs with hs | hs
    · rw [List.mem_map] at hs
      obtain ⟨i, hi, e⟩ := hs
      rw [List.mem_range'_1] at hi
      subst e
      simp only
      omega
    · rcases hn with hn | hn
      · by_cases hf : q0.newfigure = true
        · rw [if_pos hf, List.mem_singleton] at hs
          subst hs
          simp only
          omega
        · rw [if_neg hf] at hs
          cases hs
      · rw [hn] at hs
        simp at hs
  · intro s hs
    unfold lineStoresPoints at hs
    rw [List.mem_map] at hs
    obtain ⟨i, hi, e⟩ := hs
    rw [List.mem_range'_1] at hi
    subst e
    simp only
    omega

/-- C17 (the code at the failing inputs): on the freshly created path the
reservation for zero points leaves the capacity 0, and `appendLine` of zero
points then stores `Start` into the cell 0 of `Types`: the index is not below
the capacity and not in `[old count, old count + 0)`.  On a path of one point
and two cells with `newfigure` set, the same call stores into the cell 1,
outside `[1, 1 + 0)`. -/
theorem C17_empty_line_stores_outside :
    lengthen_path Heap.grant (create GpFillMode.FillModeAlternate) 0 =
      (true, create GpFillMode.FillModeAlternate) ∧
    (create GpFillMode.FillModeAlternate).datalen = 0 ∧
    lineStoresTypes (create GpFillMode.FillModeAlternate) 0 = [(0, PathPointTypeStart)] ∧
    ¬ (∀ s, s ∈ lineStoresTypes (create GpFillMode.FillModeAlternate) 0 →
        s.1 < (create GpFillMode.FillModeAlternate).datalen) ∧
    lengthen_path Heap.grant onePointPending 0 = (true, onePointPending) ∧
    lineStoresTypes onePointPending 0 = [(1, PathPointTypeStart)] ∧
    ¬ (∀ s, s ∈ lineStoresTypes onePointPending 0 →
        onePointPending.Count ≤ s.1 ∧ s.1 < onePointPending.Count + 0) := by
  decide

/-! ## The reservation -/

/-- C18 (counterexample): on the freshly created path the reservation for
zero points succeeds and leaves the capacity 0, not `max(0, 1) * 2 = 2`, with
blocks of no cell. -/
theorem C18_counterexample :
    (lengthen_path Heap.grant (create GpFillMode.FillModeAlternate) 0).1 = true ∧
    (lengthen_path Heap.grant (create GpFillMode.FillModeAlternate) 0).2.datalen = 0 ∧
    (lengthen_path Heap.grant (create GpFillMode.FillModeAlternate) 0).2.Points = [] ∧
    (lengthen_path Heap.grant (create GpFillMode.FillModeAlternate) 0).2.Types = [] ∧
    (lengthen_path Heap.grant (create GpFillMode.FillModeAlternate) 0).2.datalen ≠
      max 0 1 * 2 := by
  decide

/-- C18 (amended): for every `n ≥ 0`, on a path whose storage is unallocated
(capacity 0), with every request granted, the reservation succeeds and leaves
the capacity `n * 2` and two blocks of `n * 2` cells; this is `max(n, 1) * 2`
whenever `n ≥ 1`, and 0 when `n = 0`. -/
theorem C18_first_reservation (p : GpPath) (n : Nat) (h0 : p.datalen = 0) :
    ∃ q, lengthen_path Heap.grant p n = (true, q) ∧
      q.datalen = n * 2 ∧ q.Points.length = n * 2 ∧ q.Types.length = n * 2 ∧
      (1 ≤ n → q.datalen = max n 1 * 2) ∧ (n = 0 → q.datalen = 0) ∧
      q.Count = p.Count ∧ q.newfigure = p.newfigure ∧ q.fill = p.fill := by
  unfold lengthen_path
  rw [if_pos h0]
  refine ⟨_, rfl, rfl, ?_, ?_, fun hn => ?_, fun hn => ?_, rfl, rfl, rfl⟩
  · simp [allocPoints]
  · simp [allocTypes]
  · simp only [Heap.grant]
    rw [max_eq_left hn]
  · simp only [Heap.grant]
    omega

/-- C18 (witness): the first reservation for three points on the freshly
created path. -/
theorem C18_first_reservation_witness :
    (create GpFillMode.FillModeWinding).datalen = 0 ∧
    ∃ q, lengthen_path Heap.grant (create GpFillMode.FillModeWinding) 3 = (true, q) ∧
      q.datalen = 6 ∧ q.Points.length = 6 ∧ q.Types.length = 6 := by
  refine ⟨rfl, ?_⟩
  obtain ⟨q, hq, h1, h2, h3, _⟩ :=
    C18_first_reservation (create GpFillMode.FillModeWinding) 3 rfl
  exact ⟨q, hq, h1, h2, h3⟩

/-- The doubling loop, given enough rounds, stops at the first power-of-two
multiple of the capacity that leaves room. -/
theorem double_datalen_pow (fuel d c n : Nat) (hd : 1 ≤ d) (hf : c + n ≤ d + fuel) :
    ∃ k, double_datalen fuel d c n = d * 2 ^ k ∧ c + n ≤ d * 2 ^ k ∧
      ∀ j, j < k → d * 2 ^ j < c + n := by
  induction fuel generalizing d with
  | zero =>
    refine ⟨0, by simp [double_datalen], by simpa using hf, fun j hj => by omega⟩
  | succ f ih =>
    unfold double_datalen
    by_cases hcond : (d : Int) - (c : Int) < (n : Int)
    · rw [if_pos hcond]
      obtain ⟨k, e1, e2, e3⟩ := ih (d * 2) (by omega) (by omega)
      refine ⟨k + 1, ?_, ?_, ?_⟩
      · rw [e1, pow_succ]; ring
      · rw [pow_succ]; calc c + n ≤ d * 2 * 2 ^ k := e2
          _ = d * (2 ^ k * 2) := by ring
      · intro j hj
        cases j with
        | zero => simp only [pow_zero, Nat.mul_one]; omega
        | succ i =>
          have := e3 i (by omega)
          calc d * 2 ^ (i + 1) = d * 2 * 2 ^ i := by rw [pow_succ]; ring
            _ < c + n := this
    · rw [if_neg hcond]
      refine ⟨0, by simp, by simp only [pow_zero, Nat.mul_one]; omega, fun j hj => by omega⟩

/-- C19: on every allocated path of the data model (capacity at least 1) and
for every `n ≥ 0`, with every request granted, the reservation succeeds.  If
`capacity - count ≥ n` it changes nothing.  Otherwise the doubling loop ends
and the new capacity is `capacity * 2^k` for the least `k ≥ 1` with
`capacity * 2^k - count ≥ n`, both blocks having that many cells.  In both
cases the first `count` points and tags, `count` and `newfigure` are kept and
`capacity - count ≥ n` holds afterwards. -/
theorem C19_reservation_on_allocated (p : GpPath) (n : Nat) (h : wf p) (hd : 1 ≤ p.datalen) :
    ∃ q, lengthen_path Heap.grant p n = (true, q) ∧
      ((n : Int) ≤ (p.datalen : Int) - (p.Count : Int) → q = p) ∧
      ((p.datalen : Int) - (p.Count : Int) < (n : Int) →
        ∃ k, 1 ≤ k ∧ q.datalen = p.datalen * 2 ^ k ∧
          (n : Int) ≤ ((p.datalen * 2 ^ k : Nat) : Int) - (p.Count : Int) ∧
          (∀ j, 1 ≤ j → j < k →
            ((p.datalen * 2 ^ j : Nat) : Int) - (p.Count : Int) < (n : Int)) ∧
          q.Points.length = q.datalen ∧ q.Types.length = q.datalen) ∧
      (∀ j, j < p.Count → q.Points[j]? = p.Points[j]?) ∧
      (∀ j, j < p.Count → q.Types[j]? = p.Types[j]?) ∧
      q.Count = p.Count ∧ q.newfigure = p.newfigure ∧ q.fill = p.fill ∧
      (n : Int) ≤ (q.datalen : Int) - (q.Count : Int) := by
  obtain ⟨q, hq, hwf, hC, hN, hF, hroom, hP, hT⟩ := lengthen_path_grant p n h
  refine ⟨q, hq, ?_, ?_, hP, hT, hC, hN, hF, by omega⟩
  · intro hfit
    have e : lengthen_path Heap.grant p n = (true, p) := by
      unfold lengthen_path
      rw [if_neg (by omega), if_neg (by omega)]
    rw [e] at hq
    cases hq
    rfl
  · intro hneed
    obtain ⟨k, e1, e2, e3⟩ := double_datalen_pow (p.Count + n) p.datalen p.Count n hd (by omega)
    have e : (lengthen_path Heap.grant p n).2.datalen =
        double_datalen (p.Count + n) p.datalen p.Count n := by
      unfold lengthen_path
      rw [if_neg (by omega), if_pos hneed]
      rfl
    rw [hq] at e
    simp only at e
    refine ⟨k, ?_, by rw [e, e1], by omega, ?_, hwf.1, hwf.2.1⟩
    · cases k with
      | zero => simp only [pow_zero, Nat.mul_one] at e2; omega
      | succ i => omega
    · intro j _ hj
      have := e3 j hj
      omega

/-- C19 (witness): the full path of two points and two cells, asked for room
for five more points, is grown to eight cells, not four. -/
theorem C19_reservation_on_allocated_witness :
    wf fullPath ∧ 1 ≤ fullPath.datalen ∧
    ∃ q, lengthen_path Heap.grant fullPath 5 = (true, q) ∧ q.datalen = 8 ∧
      q.Points[1]? = some ⟨3, 4⟩ ∧ q.Count = 2 := by
  refine ⟨by decide, by decide, ?_⟩
  obtain ⟨q, hq, _, _, hP, _, hC, _⟩ :=
    C19_reservation_on_allocated fullPath 5 (by decide) (by decide)
  have e : lengthen_path Heap.grant fullPath 5 =
      (true, { fullPath with
        datalen := 8,
        Points := [⟨1, 2⟩, ⟨3, 4⟩, ⟨0, 0⟩, ⟨0, 0⟩, ⟨0, 0⟩, ⟨0, 0⟩, ⟨0, 0⟩, ⟨0, 0⟩],
        Types := [0, 1, 0, 0, 0, 0, 0, 0] }) := by decide
  rw [e] at hq
  cases hq
  exact ⟨_, rfl, rfl, hP 1 (by decide), hC⟩

/-! ## Splitting an append -/

/-- C20: on every path of the data model and for all lists `xs` and `ys` with
`xs` not empty, `appendLine(xs)` followed by `appendLine(ys)` and the single
call `appendLine(xs ++ ys)` all return `Ok` and yield the same count, the
same first-count points, the same first-count tags and the same `newfigure`
(the capacity may differ). -/
theorem C20_appendLine_split (p : GpPath) (xs ys : List PointF) (h : wf p) (hx : xs ≠ []) :
    ∃ q1 q2 r : GpPath,
      GdipAddPathLine2 Heap.grant (some p) (some xs) xs.length = (GpStatus.Ok, some q1) ∧
      GdipAddPathLine2 Heap.grant (some q1) (some ys) ys.length = (GpStatus.Ok, some q2) ∧
      GdipAddPathLine2 Heap.grant (some p) (some (xs ++ ys)) (xs ++ ys).length =
        (GpStatus.Ok, some r) ∧
      q2.Count = r.Count ∧ r.Count = p.Count + xs.length + ys.length ∧
      q2.newfigure = r.newfigure ∧
      (∀ j, j < r.Count → q2.Points[j]? = r.Points[j]?) ∧
      (∀ j, j < r.Count → q2.Types[j]? = r.Types[j]?) := by
  have hxl : 1 ≤ xs.length := by
    cases xs with
    | nil => exact absurd rfl hx
    | cons a as => simp
  obtain ⟨q1, hq1, w1, c1, _, n1, p1, t1, np1, nt1⟩ := addLine_grant p xs h
  obtain ⟨q2, hq2, _, c2, _, n2, p2, t2, np2, nt2⟩ := addLine_grant q1 ys w1
  obtain ⟨r, hr, _, c3, _, n3, p3, t3, np3, nt3⟩ := addLine_grant p (xs ++ ys) h
  rw [List.length_append] at c3
  refine ⟨q1, q2, r, hq1, hq2, hr, by omega, by omega, by rw [n2, n3], ?_, ?_⟩
  · intro j hj
    by_cases h1 : j < p.Count
    · rw [p2 j (by omega), p1 j h1, p3 j h1]
    · by_cases h2 : j < p.Count + xs.length
      · obtain ⟨i, rfl⟩ : ∃ i, j = p.Count + i := ⟨j - p.Count, by omega⟩
        rw [p2 _ (by omega), np1 i (by omega),
          np3 i (by rw [List.length_append]; omega),
          List.getElem?_append_left (by omega)]
      · obtain ⟨i, rfl⟩ : ∃ i, j = q1.Count + i := ⟨j - q1.Count, by omega⟩
        rw [np2 i (by omega)]
        have e : q1.Count + i = p.Count + (xs.length + i) := by omega
        rw [e, np3 (xs.length + i) (by rw [List.length_append]; omega),
          List.getElem?_append_right (by omega)]
        congr 1
        omega
  · intro j hj
    by_cases h1 : j < p.Count
    · rw [t2 j (by omega), t1 j h1, t3 j h1]
    · by_cases h2 : j < p.Count + xs.length
      · obtain ⟨i, rfl⟩ : ∃ i, j = p.Count + i := ⟨j - p.Count, by omega⟩
        rw [t2 _ (by omega), nt1 i (by omega),
          nt3 i (by rw [List.length_append]; omega)]
      · obtain ⟨i, rfl⟩ : ∃ i, j = q1.Count + i := ⟨j - q1.Count, by omega⟩
        rw [nt2 i (by omega)]
        have e : q1.Count + i = p.Count + (xs.length + i) := by omega
        rw [e, nt3 (xs.length + i) (by rw [List.length_append]; omega), n1,
          if_neg (by simp), if_neg (by omega)]

/-- C20 (witness): two points and then one point, against the three points
at once, on a path of one point whose `newfigure` is set. -/
theorem C20_appendLine_split_witness :
    wf onePointPending ∧ ([⟨3, 4⟩, ⟨5, 6⟩] : List PointF) ≠ [] ∧
    ∃ q1 q2 r : GpPath,
      GdipAddPathLine2 Heap.grant (some onePointPending) (some [⟨3, 4⟩, ⟨5, 6⟩]) 2 =
        (GpStatus.Ok, some q1) ∧
      GdipAddPathLine2 Heap.grant (some q1) (some [⟨7, 8⟩]) 1 = (GpStatus.Ok, some q2) ∧
      GdipAddPathLine2 Heap.grant (some onePointPending)
          (some [⟨3, 4⟩, ⟨5, 6⟩, ⟨7, 8⟩]) 3 = (GpStatus.Ok, some r) ∧
      q2.Count = r.Count ∧ q2.Types[1]? = r.Types[1]? := by
  refine ⟨by decide, by decide, ?_⟩
  obtain ⟨q1, q2, r, h1, h2, h3, hc, hr, _, _, hT⟩ :=
    C20_appendLine_split onePointPending [⟨3, 4⟩, ⟨5, 6⟩] [⟨7, 8⟩] (by decide) (by decide)
  refine ⟨q1, q2, r, h1, h2, h3, hc, hT 1 ?_⟩
  rw [hr]
  decide

/-! ## The bounds in floating point -/

/-- The rounding at values whose nearest `float` or `double` is known. -/
theorem roundBinary_samples :
    roundBinary 24 (1 / 10) = 13421773 / 2 ^ 27 ∧
    roundBinary 24 (11 / 5) = 9227469 / 2 ^ 22 ∧
    roundBinary 53 (11 / 5) = 2476979795053773 / 2 ^ 50 ∧
    roundBinary 24 (1 / 3) = 11184811 / 2 ^ 25 ∧
    roundBinary 24 16777215 = 16777215 ∧
    roundBinary 24 16777217 = 16777216 ∧
    roundBinary 24 16777219 = 16777220 ∧
    roundBinary 24 (-3) = -3 ∧
    roundBinary 24 (1 + 1 / 2 ^ 26) = 1 ∧
    roundBinary 24 0 = 0 := by
  decide!

/-- Without rounding, `GdipGetPathWorldBoundsFl` is `GdipGetPathWorldBounds`. -/
theorem bounds_exact_rounding (path : Option GpPath) (bounds : Option GpRectF)
    (matrix : Option GpMatrix) (pen : Option GpPen) :
    GdipGetPathWorldBoundsFl Rounding.exact path bounds matrix pen =
      GdipGetPathWorldBounds path bounds matrix pen := by
  rfl

end GdiPlus
